import Mathlib

/-
Verification of the lox-js tree-walking interpreter: a shallow embedding of
the scanner, parser (expression grammar), resolver and runtime
(environment chain, callables, classes, instances) in Lean 4, together
with theorems settling the specification claims.

Source text is modelled as `List Char`; indices into it are `Nat`.
JavaScript numbers are modelled as exact rationals plus NaN and signed
infinity (no claim below depends on rounding).  Mutable JS objects
(environments, functions, classes, instances) live in append-only stores
inside an explicit interpreter state; object identity is the store index.
Loops and recursion in the interpreter and parser are driven by an
explicit fuel parameter; the scanner's inner loops recurse on the distance
to the end of the source.
-/

namespace Lox

/-- Token kinds, from token-type.js (fixed set used by scanner.js and parser.js). -/
inductive TokenType where
  | LEFT_PAREN | RIGHT_PAREN | LEFT_BRACE | RIGHT_BRACE
  | COMMA | DOT | MINUS | PLUS | SEMICOLON | STAR | SLASH
  | BANG | BANG_EQUAL | EQUAL | EQUAL_EQUAL
  | LESS | LESS_EQUAL | GREATER | GREATER_EQUAL
  | QUESTION | COLON
  | STRING | NUMBER | IDENTIFIER
  | AND | CLASS | ELSE | FALSE | FOR | FUN | IF | NIL | OR
  | PRINT | RETURN | SUPER | THIS | TRUE | VAR | WHILE
  | EOF
deriving DecidableEq, Repr

/-- JavaScript double, idealized: exact rational, NaN, or signed infinity. -/
inductive JsNum where
  | finite (q : ℚ)
  | nan
  | inf (neg : Bool)
deriving DecidableEq, Repr

/-- Token literal payload: `number | string | null` (token.js). -/
inductive TLit where
  | nullLit
  | numLit (n : JsNum)
  | strLit (s : List Char)
deriving DecidableEq, Repr

/-- A scanner token: `{type, lexeme, literal, line}` (token.js). -/
structure Token where
  type : TokenType
  lexeme : List Char
  literal : TLit
  line : Nat
deriving DecidableEq, Repr

/-- Contiguous slice of the source, as in JS `source.slice(i, j)`. -/
def slice (s : List Char) (i j : Nat) : List Char := (s.drop i).take (j - i)

/-- Number of newline characters among the first `i` characters of the source. -/
def nlCount (s : List Char) (i : Nat) : Nat :=
  ((s.take i).filter (fun c => c = '\n')).length

/-- The 1-based line on which the character at index `i` sits (index `s.length`
for the end of input). -/
def lineOfIndex (s : List Char) (i : Nat) : Nat := 1 + nlCount s i

/-- isDigit from scanner.js: char code between 48 and 57. -/
def isDigitC (c : Char) : Bool := 48 ≤ c.toNat && c.toNat ≤ 57

/-- isAlpha from scanner.js: a-z, A-Z or underscore. -/
def isAlphaC (c : Char) : Bool :=
  (97 ≤ c.toNat && c.toNat ≤ 122) || (65 ≤ c.toNat && c.toNat ≤ 90) || c = '_'

/-- isAlphaNumeric from scanner.js. -/
def isAlphaNumC (c : Char) : Bool := isAlphaC c || isDigitC c

/-- Lifted digit test for `#peek()` results (`string | null` in JS). -/
def isDigitO : Option Char → Bool
  | some c => isDigitC c
  | none => false

/-- Lifted alphanumeric test for `#peek()` results. -/
def isAlphaNumO : Option Char → Bool
  | some c => isAlphaNumC c
  | none => false

/-- The keyword table KEYWORDS of scanner.js. -/
def keywords : List (List Char × TokenType) :=
  [("and".toList, .AND), ("class".toList, .CLASS), ("else".toList, .ELSE),
   ("false".toList, .FALSE), ("for".toList, .FOR), ("fun".toList, .FUN),
   ("if".toList, .IF), ("nil".toList, .NIL), ("or".toList, .OR),
   ("print".toList, .PRINT), ("return".toList, .RETURN),
   ("super".toList, .SUPER), ("this".toList, .THIS), ("true".toList, .TRUE),
   ("var".toList, .VAR), ("while".toList, .WHILE)]

/-- Fueled form of Scanner.#scanToken's comment loop
(`while (this.#peek() !== "\n" && !this.#isAtEnd()) this.#advance()`);
the caller passes `src.length - i` fuel, which is always sufficient. -/
def commentEndF (src : List Char) : Nat → Nat → Nat
  | 0, i => i
  | fuel + 1, i =>
    match src[i]? with
    | none => i
    | some c => if c = '\n' then i else commentEndF src fuel (i + 1)

/-- End position of a `//` line comment. -/
def commentEnd (src : List Char) (i : Nat) : Nat :=
  commentEndF src (src.length - i) i

/-- Fueled form of the scan loop of Scanner.#string: advance to the closing
quote (or the end), incrementing the line counter at each newline passed.
Returns the index of the closing quote (or `src.length`) and the updated
line counter. -/
def stringEndF (src : List Char) : Nat → Nat → Nat → Nat × Nat
  | 0, i, line => (i, line)
  | fuel + 1, i, line =>
    match src[i]? with
    | none => (i, line)
    | some c =>
      if c = '"' then (i, line)
      else stringEndF src fuel (i + 1) (if c = '\n' then line + 1 else line)

/-- The scan loop of Scanner.#string. -/
def stringEnd (src : List Char) (i line : Nat) : Nat × Nat :=
  stringEndF src (src.length - i) i line

/-- Fueled form of the `while (isDigit(this.#peek()))` loops of Scanner.#number. -/
def digitsEndF (src : List Char) : Nat → Nat → Nat
  | 0, i => i
  | fuel + 1, i =>
    match src[i]? with
    | none => i
    | some c => if isDigitC c then digitsEndF src fuel (i + 1) else i

/-- End position of a run of digits. -/
def digitsEnd (src : List Char) (i : Nat) : Nat :=
  digitsEndF src (src.length - i) i

/-- Fueled form of the loop of Scanner.#identifier. -/
def identEndF (src : List Char) : Nat → Nat → Nat
  | 0, i => i
  | fuel + 1, i =>
    match src[i]? with
    | none => i
    | some c => if isAlphaNumC c then identEndF src fuel (i + 1) else i

/-- End position of an identifier. -/
def identEnd (src : List Char) (i : Nat) : Nat :=
  identEndF src (src.length - i) i

/-- Value of a digit run, most significant first. -/
def digitsToNat (cs : List Char) : Nat :=
  cs.foldl (fun n c => n * 10 + (c.toNat - 48)) 0

/-- Number.parseFloat on a lexeme of shape `digits` or `digits.digits`
(the only shapes Scanner.#number produces), as an exact rational. -/
def numLitVal (cs : List Char) : JsNum :=
  let intPart := cs.takeWhile (fun c => c ≠ '.')
  let frac := (cs.dropWhile (fun c => c ≠ '.')).drop 1
  .finite ((digitsToNat intPart : ℚ) + (digitsToNat frac : ℚ) / (10 ^ frac.length : ℚ))

/-- Result of Scanner.#scanToken: at most one token, at most one reported
scan error `(line, message)`, and the updated `current` and `line`. -/
structure ScanStep where
  tok : Option Token
  err : Option (Nat × String)
  current : Nat
  line : Nat
deriving Repr

/-- A single-character token emitted by Scanner.#addToken: lexeme
`source.slice(start, start + 1)`, stamped with the current line. -/
def oneCharTok (src : List Char) (start line : Nat) (t : TokenType) : ScanStep :=
  ⟨some ⟨t, slice src start (start + 1), .nullLit, line⟩, none, start + 1, line⟩

/-- A two-character operator token (`!=`, `==`, `<=`, `>=`): the second
character was consumed by Scanner.#match. -/
def twoCharTok (src : List Char) (start line : Nat) (t : TokenType) : ScanStep :=
  ⟨some ⟨t, slice src start (start + 2), .nullLit, line⟩, none, start + 2, line⟩

/-- The string-literal case of Scanner.#scanToken (Scanner.#string), entered
with the opening quote already consumed (`current = start + 1`). -/
def stringTok (src : List Char) (start line : Nat) : ScanStep :=
  match stringEnd src (start + 1) line with
  | (e, line2) =>
    if src.length ≤ e then
      ⟨none, some (line2, "Unterminated string."), e, line2⟩
    else
      ⟨some ⟨.STRING, slice src start (e + 1), .strLit (slice src (start + 1) e), line2⟩,
        none, e + 1, line2⟩

/-- End position of a numeric literal per Scanner.#number: a run of digits,
then optionally a dot followed by at least one digit and a further run. -/
def numEnd (src : List Char) (start : Nat) : Nat :=
  if src[digitsEnd src (start + 1)]? = some '.' &&
      isDigitO (src[digitsEnd src (start + 1) + 1]?)
  then digitsEnd src (digitsEnd src (start + 1) + 1)
  else digitsEnd src (start + 1)

/-- The number case of Scanner.#scanToken (Scanner.#number). -/
def numberTok (src : List Char) (start line : Nat) : ScanStep :=
  ⟨some ⟨.NUMBER, slice src start (numEnd src start),
      .numLit (numLitVal (slice src start (numEnd src start))), line⟩,
    none, numEnd src start, line⟩

/-- The identifier/keyword case of Scanner.#scanToken (Scanner.#identifier). -/
def identTok (src : List Char) (start line : Nat) : ScanStep :=
  ⟨some ⟨(keywords.lookup (slice src start (identEnd src (start + 1)))).getD .IDENTIFIER,
      slice src start (identEnd src (start + 1)), .nullLit, line⟩,
    none, identEnd src (start + 1), line⟩

/-- Scanner.#scanToken: scan one token starting at index `start` (the JS code
first does `c = this.#advance()`, so `current = start + 1` at the `switch`;
the switch on `c` is rendered as an equality chain). -/
def scanToken (src : List Char) (start line : Nat) : ScanStep :=
  match src[start]? with
  | none => ⟨none, none, start + 1, line⟩
  | some c =>
    if c = '(' then oneCharTok src start line .LEFT_PAREN
    else if c = ')' then oneCharTok src start line .RIGHT_PAREN
    else if c = '{' then oneCharTok src start line .LEFT_BRACE
    else if c = '}' then oneCharTok src start line .RIGHT_BRACE
    else if c = ',' then oneCharTok src start line .COMMA
    else if c = '.' then oneCharTok src start line .DOT
    else if c = '-' then oneCharTok src start line .MINUS
    else if c = '+' then oneCharTok src start line .PLUS
    else if c = ';' then oneCharTok src start line .SEMICOLON
    else if c = '*' then oneCharTok src start line .STAR
    else if c = '!' then
      if src[start + 1]? = some '=' then twoCharTok src start line .BANG_EQUAL
      else oneCharTok src start line .BANG
    else if c = '=' then
      if src[start + 1]? = some '=' then twoCharTok src start line .EQUAL_EQUAL
      else oneCharTok src start line .EQUAL
    else if c = '<' then
      if src[start + 1]? = some '=' then twoCharTok src start line .LESS_EQUAL
      else oneCharTok src start line .LESS
    else if c = '>' then
      if src[start + 1]? = some '=' then twoCharTok src start line .GREATER_EQUAL
      else oneCharTok src start line .GREATER
    else if c = '/' then
      if src[start + 1]? = some '/' then ⟨none, none, commentEnd src (start + 2), line⟩
      else oneCharTok src start line .SLASH
    else if c = ' ' then ⟨none, none, start + 1, line⟩
    else if c = '\r' then ⟨none, none, start + 1, line⟩
    else if c = '\t' then ⟨none, none, start + 1, line⟩
    else if c = '\n' then ⟨none, none, start + 1, line + 1⟩
    else if c = '"' then stringTok src start line
    else if isDigitC c then numberTok src start line
    else if isAlphaC c then identTok src start line
    else ⟨none, some (line, "Unexpected character: '" ++ String.mk [c] ++ "'"), start + 1, line⟩

/-- The scanTokens loop of scanner.js, with explicit fuel (each iteration
consumes at least one character, so `src.length + 1` units suffice).
Returns the token list (ending in the EOF sentinel) and the reported
scan errors. -/
def scanLoop (src : List Char) : Nat → Nat → Nat → List Token × List (Nat × String)
  | 0, _, line => ([⟨.EOF, [], .nullLit, line⟩], [])
  | fuel + 1, cur, line =>
    if cur < src.length then
      ((scanToken src cur line).tok.toList ++
          (scanLoop src fuel (scanToken src cur line).current (scanToken src cur line).line).1,
        (scanToken src cur line).err.toList ++
          (scanLoop src fuel (scanToken src cur line).current (scanToken src cur line).line).2)
    else ([⟨.EOF, [], .nullLit, line⟩], [])

/-- Scanner.scanTokens: scan the whole source. -/
def scanTokens (src : List Char) : List Token × List (Nat × String) :=
  scanLoop src (src.length + 1) 0 1

theorem slice_self (s : List Char) (i : Nat) : slice s i i = [] := by
  simp [slice]

theorem take_add_slice {s : List Char} {i j : Nat} (h : i ≤ j) :
    s.take j = s.take i ++ slice s i j := by
  have hj : j = i + (j - i) := by omega
  rw [hj, List.take_add, slice]
  congr 2
  omega

theorem source_decomp {s : List Char} {i j : Nat} (hij : i ≤ j) :
    s.take i ++ slice s i j ++ s.drop j = s := by
  rw [← take_add_slice hij, List.take_append_drop]

theorem get?_lt {s : List Char} {i : Nat} {c : Char} (h : s[i]? = some c) :
    i < s.length :=
  (List.getElem?_eq_some.mp h).1

theorem nlCount_succ {s : List Char} {i : Nat} {c : Char} (h : s[i]? = some c) :
    nlCount s (i + 1) = nlCount s i + (if c = '\n' then 1 else 0) := by
  unfold nlCount
  rw [List.take_succ, h]
  by_cases hc : c = '\n' <;>
    simp [List.filter_append, hc]

theorem nlCount_slice {s : List Char} {i j : Nat} (h : i ≤ j) :
    nlCount s j = nlCount s i + ((slice s i j).filter (fun c => c = '\n')).length := by
  unfold nlCount
  rw [take_add_slice h, List.filter_append, List.length_append]

theorem commentEndF_spec (s : List Char) :
    ∀ fuel i, i ≤ s.length → s.length - i ≤ fuel →
      i ≤ commentEndF s fuel i ∧ commentEndF s fuel i ≤ s.length ∧
        nlCount s (commentEndF s fuel i) = nlCount s i := by
  intro fuel
  induction fuel with
  | zero =>
    intro i hi _
    exact ⟨le_rfl, hi, rfl⟩
  | succ n ih =>
    intro i hi hf
    cases hg : s[i]? with
    | none =>
      have hv : commentEndF s (n + 1) i = i := by simp [commentEndF, hg]
      rw [hv]
      exact ⟨le_rfl, hi, rfl⟩
    | some c =>
      have hlt : i < s.length := get?_lt hg
      by_cases hc : c = '\n'
      · have hv : commentEndF s (n + 1) i = i := by simp [commentEndF, hg, hc]
        rw [hv]
        exact ⟨le_rfl, hi, rfl⟩
      · have hv : commentEndF s (n + 1) i = commentEndF s n (i + 1) := by
          simp [commentEndF, hg, hc]
        rw [hv]
        obtain ⟨a, b, d⟩ := ih (i + 1) hlt (by omega)
        refine ⟨by omega, b, ?_⟩
        rw [d, nlCount_succ hg, if_neg hc]
        omega

theorem digitsEndF_spec (s : List Char) :
    ∀ fuel i, i ≤ s.length → s.length - i ≤ fuel →
      i ≤ digitsEndF s fuel i ∧ digitsEndF s fuel i ≤ s.length ∧
        nlCount s (digitsEndF s fuel i) = nlCount s i := by
  intro fuel
  induction fuel with
  | zero =>
    intro i hi _
    exact ⟨le_rfl, hi, rfl⟩
  | succ n ih =>
    intro i hi hf
    cases hg : s[i]? with
    | none =>
      have hv : digitsEndF s (n + 1) i = i := by simp [digitsEndF, hg]
      rw [hv]
      exact ⟨le_rfl, hi, rfl⟩
    | some c =>
      have hlt : i < s.length := get?_lt hg
      by_cases hc : isDigitC c
      · have hv : digitsEndF s (n + 1) i = digitsEndF s n (i + 1) := by
          simp [digitsEndF, hg, hc]
        rw [hv]
        obtain ⟨a, b, d⟩ := ih (i + 1) hlt (by omega)
        have hcn : c ≠ '\n' := by
          intro hEq
          rw [hEq] at hc
          exact absurd hc (by decide)
        refine ⟨by omega, b, ?_⟩
        rw [d, nlCount_succ hg, if_neg hcn]
        omega
      · have hv : digitsEndF s (n + 1) i = i := by simp [digitsEndF, hg, hc]
        rw [hv]
        exact ⟨le_rfl, hi, rfl⟩

theorem identEndF_spec (s : List Char) :
    ∀ fuel i, i ≤ s.length → s.length - i ≤ fuel →
      i ≤ identEndF s fuel i ∧ identEndF s fuel i ≤ s.length ∧
        nlCount s (identEndF s fuel i) = nlCount s i := by
  intro fuel
  induction fuel with
  | zero =>
    intro i hi _
    exact ⟨le_rfl, hi, rfl⟩
  | succ n ih =>
    intro i hi hf
    cases hg : s[i]? with
    | none =>
      have hv : identEndF s (n + 1) i = i := by simp [identEndF, hg]
      rw [hv]
      exact ⟨le_rfl, hi, rfl⟩
    | some c =>
      have hlt : i < s.length := get?_lt hg
      by_cases hc : isAlphaNumC c
      · have hv : identEndF s (n + 1) i = identEndF s n (i + 1) := by
          simp [identEndF, hg, hc]
        rw [hv]
        obtain ⟨a, b, d⟩ := ih (i + 1) hlt (by omega)
        have hcn : c ≠ '\n' := by
          intro hEq
          rw [hEq] at hc
          exact absurd hc (by decide)
        refine ⟨by omega, b, ?_⟩
        rw [d, nlCount_succ hg, if_neg hcn]
        omega
      · have hv : identEndF s (n + 1) i = i := by simp [identEndF, hg, hc]
        rw [hv]
        exact ⟨le_rfl, hi, rfl⟩

theorem stringEndF_spec (s : List Char) :
    ∀ fuel i line e line2, i ≤ s.length → s.length - i ≤ fuel →
      stringEndF s fuel i line = (e, line2) →
      i ≤ e ∧ e ≤ s.length ∧ line2 + nlCount s i = line + nlCount s e ∧
        (e = s.length ∨ s[e]? = some '"') := by
  intro fuel
  induction fuel with
  | zero =>
    intro i line e line2 hi hf heq
    have h0 : i = s.length := by omega
    cases heq
    exact ⟨le_rfl, hi, rfl, Or.inl h0⟩
  | succ n ih =>
    intro i line e line2 hi hf heq
    cases hg : s[i]? with
    | none =>
      have hge : s.length ≤ i := List.getElem?_eq_none_iff.mp hg
      have hv : stringEndF s (n + 1) i line = (i, line) := by simp [stringEndF, hg]
      rw [hv] at heq
      cases heq
      exact ⟨le_rfl, hi, rfl, Or.inl (by omega)⟩
    | some c =>
      have hlt : i < s.length := get?_lt hg
      by_cases hc : c = '"'
      · have hv : stringEndF s (n + 1) i line = (i, line) := by
          simp [stringEndF, hg, hc]
        rw [hv] at heq
        cases heq
        subst hc
        exact ⟨le_rfl, hi, rfl, Or.inr hg⟩
      · have hv : stringEndF s (n + 1) i line =
            stringEndF s n (i + 1) (if c = '\n' then line + 1 else line) := by
          simp [stringEndF, hg, hc]
        rw [hv] at heq
        obtain ⟨a, b, d, q⟩ := ih (i + 1) (if c = '\n' then line + 1 else line) e line2
          hlt (by omega) heq
        refine ⟨by omega, b, ?_, q⟩
        rw [nlCount_succ hg] at *
        by_cases hcn : c = '\n' <;> simp [hcn] at d ⊢ <;> omega

/-- Invariant of one Scanner.#scanToken step at `start` with line counter
`line`: progress, bounds, the line counter tracks the newline count of the
consumed prefix, and any emitted token's lexeme is exactly the consumed
slice, stamped with the line counter at emission time. -/
def ScanStepOk (src : List Char) (start line : Nat) (st : ScanStep) : Prop :=
  start < st.current ∧ st.current ≤ src.length ∧
  st.line + nlCount src start = line + nlCount src st.current ∧
  ∀ t, st.tok = some t → t.lexeme = slice src start st.current ∧ t.line = st.line

theorem oneCharTok_spec {src : List Char} {start : Nat} {c : Char} (line : Nat)
    (t : TokenType) (h : src[start]? = some c) (hc : c ≠ '\n') :
    ScanStepOk src start line (oneCharTok src start line t) := by
  have hlt : start < src.length := get?_lt h
  refine ⟨Nat.lt_succ_self _, hlt, ?_, ?_⟩
  · show line + nlCount src start = line + nlCount src (start + 1)
    rw [nlCount_succ h, if_neg hc]
    omega
  · intro tk htk
    cases htk
    exact ⟨rfl, rfl⟩

theorem twoCharTok_spec {src : List Char} {start : Nat} {c c2 : Char} (line : Nat)
    (t : TokenType) (h : src[start]? = some c) (hc : c ≠ '\n')
    (h2 : src[start + 1]? = some c2) (hc2 : c2 ≠ '\n') :
    ScanStepOk src start line (twoCharTok src start line t) := by
  have hlt : start + 1 < src.length := get?_lt h2
  refine ⟨?_, ?_, ?_, ?_⟩
  · show start < start + 2
    omega
  · show start + 2 ≤ src.length
    omega
  · show line + nlCount src start = line + nlCount src (start + 1 + 1)
    rw [nlCount_succ h2, if_neg hc2, nlCount_succ h, if_neg hc]
    omega
  · intro tk htk
    cases htk
    exact ⟨rfl, rfl⟩

theorem skipStep_spec {src : List Char} {start : Nat} {c : Char} (line : Nat)
    (oerr : Option (Nat × String)) (h : src[start]? = some c) (hc : c ≠ '\n') :
    ScanStepOk src start line ⟨none, oerr, start + 1, line⟩ := by
  have hlt : start < src.length := get?_lt h
  refine ⟨Nat.lt_succ_self _, hlt, ?_, ?_⟩
  · show line + nlCount src start = line + nlCount src (start + 1)
    rw [nlCount_succ h, if_neg hc]
    omega
  · intro tk htk
    cases htk

theorem newlineStep_spec {src : List Char} {start : Nat} (line : Nat)
    (h : src[start]? = some '\n') :
    ScanStepOk src start line ⟨none, none, start + 1, line + 1⟩ := by
  have hlt : start < src.length := get?_lt h
  refine ⟨Nat.lt_succ_self _, hlt, ?_, ?_⟩
  · show line + 1 + nlCount src start = line + nlCount src (start + 1)
    rw [nlCount_succ h, if_pos rfl]
    omega
  · intro tk htk
    cases htk

theorem commentStep_spec {src : List Char} {start : Nat} {c c2 : Char} (line : Nat)
    (h : src[start]? = some c) (hc : c ≠ '\n')
    (h2 : src[start + 1]? = some c2) (hc2 : c2 ≠ '\n') :
    ScanStepOk src start line ⟨none, none, commentEnd src (start + 2), line⟩ := by
  have hlt : start + 1 < src.length := get?_lt h2
  obtain ⟨a, b, d⟩ := commentEndF_spec src (src.length - (start + 2)) (start + 2)
    (by omega) le_rfl
  refine ⟨?_, ?_, ?_, ?_⟩
  · show start < commentEnd src (start + 2)
    unfold commentEnd
    omega
  · show commentEnd src (start + 2) ≤ src.length
    unfold commentEnd
    exact b
  · show line + nlCount src start = line + nlCount src (commentEnd src (start + 2))
    unfold commentEnd
    rw [d]
    show line + nlCount src start = line + nlCount src (start + 1 + 1)
    rw [nlCount_succ h2, if_neg hc2, nlCount_succ h, if_neg hc]
    omega
  · intro tk htk
    cases htk

theorem stringTok_spec {src : List Char} {start : Nat} (line : Nat)
    (h : src[start]? = some '"') :
    ScanStepOk src start line (stringTok src start line) := by
  have hlt : start < src.length := get?_lt h
  rcases hse : stringEnd src (start + 1) line with ⟨e, line2⟩
  obtain ⟨a, b, d, q⟩ := stringEndF_spec src (src.length - (start + 1)) (start + 1)
    line e line2 hlt le_rfl hse
  have hd : nlCount src (start + 1) = nlCount src start := by
    rw [nlCount_succ h, if_neg (by decide : ¬('"' = '\n'))]
    omega
  unfold stringTok
  rw [hse]
  dsimp only
  by_cases hend : src.length ≤ e
  · rw [if_pos hend]
    refine ⟨?_, ?_, ?_, ?_⟩
    · show start < e
      omega
    · show e ≤ src.length
      omega
    · show line2 + nlCount src start = line + nlCount src e
      omega
    · intro tk htk
      cases htk
  · rw [if_neg hend]
    have hq : src[e]? = some '"' := by
      rcases q with hq | hq
      · exact absurd hq (by omega)
      · exact hq
    refine ⟨?_, ?_, ?_, ?_⟩
    · show start < e + 1
      omega
    · show e + 1 ≤ src.length
      omega
    · show line2 + nlCount src start = line + nlCount src (e + 1)
      rw [nlCount_succ hq, if_neg (by decide : ¬('"' = '\n'))]
      omega
    · intro tk htk
      cases htk
      exact ⟨rfl, rfl⟩

theorem numEnd_spec {src : List Char} {start : Nat} {c : Char}
    (h : src[start]? = some c) (hd : isDigitC c = true) :
    start < numEnd src start ∧ numEnd src start ≤ src.length ∧
      nlCount src (numEnd src start) = nlCount src start := by
  have hlt : start < src.length := get?_lt h
  have hcn : c ≠ '\n' := by
    intro hEq
    rw [hEq] at hd
    exact absurd hd (by decide)
  have hd1 : nlCount src (start + 1) = nlCount src start := by
    rw [nlCount_succ h, if_neg hcn]
    omega
  obtain ⟨a1, b1, e1⟩ := digitsEndF_spec src (src.length - (start + 1)) (start + 1)
    hlt le_rfl
  unfold numEnd
  by_cases hdot : (src[digitsEnd src (start + 1)]? = some '.' &&
      isDigitO (src[digitsEnd src (start + 1) + 1]?)) = true
  · rw [if_pos hdot]
    rw [Bool.and_eq_true] at hdot
    obtain ⟨hdot1, _⟩ := hdot
    have hdot1' : src[digitsEnd src (start + 1)]? = some '.' := by
      exact of_decide_eq_true hdot1
    have hdlt : digitsEnd src (start + 1) < src.length := get?_lt hdot1'
    obtain ⟨a2, b2, e2⟩ := digitsEndF_spec src
      (src.length - (digitsEnd src (start + 1) + 1)) (digitsEnd src (start + 1) + 1)
      hdlt le_rfl
    unfold digitsEnd at *
    refine ⟨by omega, b2, ?_⟩
    rw [e2, nlCount_succ hdot1', if_neg (by decide : ¬('.' = '\n'))]
    omega
  · rw [if_neg hdot]
    unfold digitsEnd at *
    exact ⟨by omega, b1, by omega⟩

theorem numberTok_spec {src : List Char} {start : Nat} {c : Char} (line : Nat)
    (h : src[start]? = some c) (hd : isDigitC c = true) :
    ScanStepOk src start line (numberTok src start line) := by
  obtain ⟨a, b, e⟩ := numEnd_spec h hd
  refine ⟨a, b, ?_, ?_⟩
  · show line + nlCount src start = line + nlCount src (numEnd src start)
    rw [e]
  · intro tk htk
    cases htk
    exact ⟨rfl, rfl⟩

theorem identTok_spec {src : List Char} {start : Nat} {c : Char} (line : Nat)
    (h : src[start]? = some c) (hd : isAlphaC c = true) :
    ScanStepOk src start line (identTok src start line) := by
  have hlt : start < src.length := get?_lt h
  have hcn : c ≠ '\n' := by
    intro hEq
    rw [hEq] at hd
    exact absurd hd (by decide)
  obtain ⟨a1, b1, e1⟩ := identEndF_spec src (src.length - (start + 1)) (start + 1)
    hlt le_rfl
  refine ⟨?_, ?_, ?_, ?_⟩
  · show start < identEnd src (start + 1)
    unfold identEnd
    omega
  · exact b1
  · show line + nlCount src start = line + nlCount src (identEnd src (start + 1))
    unfold identEnd
    rw [e1, nlCount_succ h, if_neg hcn]
    omega
  · intro tk htk
    cases htk
    exact ⟨rfl, rfl⟩

set_option maxHeartbeats 1000000 in
theorem scanToken_spec (src : List Char) (start line : Nat) (h : start < src.length) :
    ScanStepOk src start line (scanToken src start line) := by
  obtain ⟨c, hg⟩ : ∃ c, src[start]? = some c :=
    ⟨src[start], List.getElem?_eq_getElem h⟩
  unfold scanToken
  rw [hg]
  dsimp only
  by_cases hc1 : c = '('
  · rw [if_pos hc1]
    exact oneCharTok_spec line _ hg (by rw [hc1]; decide)
  rw [if_neg hc1]
  by_cases hc2 : c = ')'
  · rw [if_pos hc2]
    exact oneCharTok_spec line _ hg (by rw [hc2]; decide)
  rw [if_neg hc2]
  by_cases hc3 : c = '{'
  · rw [if_pos hc3]
    exact oneCharTok_spec line _ hg (by rw [hc3]; decide)
  rw [if_neg hc3]
  by_cases hc4 : c = '}'
  · rw [if_pos hc4]
    exact oneCharTok_spec line _ hg (by rw [hc4]; decide)
  rw [if_neg hc4]
  by_cases hc5 : c = ','
  · rw [if_pos hc5]
    exact oneCharTok_spec line _ hg (by rw [hc5]; decide)
  rw [if_neg hc5]
  by_cases hc6 : c = '.'
  · rw [if_pos hc6]
    exact oneCharTok_spec line _ hg (by rw [hc6]; decide)
  rw [if_neg hc6]
  by_cases hc7 : c = '-'
  · rw [if_pos hc7]
    exact oneCharTok_spec line _ hg (by rw [hc7]; decide)
  rw [if_neg hc7]
  by_cases hc8 : c = '+'
  · rw [if_pos hc8]
    exact oneCharTok_spec line _ hg (by rw [hc8]; decide)
  rw [if_neg hc8]
  by_cases hc9 : c = ';'
  · rw [if_pos hc9]
    exact oneCharTok_spec line _ hg (by rw [hc9]; decide)
  rw [if_neg hc9]
  by_cases hc10 : c = '*'
  · rw [if_pos hc10]
    exact oneCharTok_spec line _ hg (by rw [hc10]; decide)
  rw [if_neg hc10]
  by_cases hc11 : c = '!'
  · rw [if_pos hc11]
    by_cases he11 : src[start + 1]? = some '='
    · rw [if_pos he11]
      exact twoCharTok_spec line _ hg (by rw [hc11]; decide) he11 (by decide)
    · rw [if_neg he11]
      exact oneCharTok_spec line _ hg (by rw [hc11]; decide)
  rw [if_neg hc11]
  by_cases hc12 : c = '='
  · rw [if_pos hc12]
    by_cases he12 : src[start + 1]? = some '='
    · rw [if_pos he12]
      exact twoCharTok_spec line _ hg (by rw [hc12]; decide) he12 (by decide)
    · rw [if_neg he12]
      exact oneCharTok_spec line _ hg (by rw [hc12]; decide)
  rw [if_neg hc12]
  by_cases hc13 : c = '<'
  · rw [if_pos hc13]
    by_cases he13 : src[start + 1]? = some '='
    · rw [if_pos he13]
      exact twoCharTok_spec line _ hg (by rw [hc13]; decide) he13 (by decide)
    · rw [if_neg he13]
      exact oneCharTok_spec line _ hg (by rw [hc13]; decide)
  rw [if_neg hc13]
  by_cases hc14 : c = '>'
  · rw [if_pos hc14]
    by_cases he14 : src[start + 1]? = some '='
    · rw [if_pos he14]
      exact twoCharTok_spec line _ hg (by rw [hc14]; decide) he14 (by decide)
    · rw [if_neg he14]
      exact oneCharTok_spec line _ hg (by rw [hc14]; decide)
  rw [if_neg hc14]
  by_cases hc15 : c = '/'
  · rw [if_pos hc15]
    by_cases he15 : src[start + 1]? = some '/'
    · rw [if_pos he15]
      exact commentStep_spec line hg (by rw [hc15]; decide) he15 (by decide)
    · rw [if_neg he15]
      exact oneCharTok_spec line _ hg (by rw [hc15]; decide)
  rw [if_neg hc15]
  by_cases hc16 : c = ' '
  · rw [if_pos hc16]
    exact skipStep_spec line none hg (by rw [hc16]; decide)
  rw [if_neg hc16]
  by_cases hc17 : c = '\r'
  · rw [if_pos hc17]
    exact skipStep_spec line none hg (by rw [hc17]; decide)
  rw [if_neg hc17]
  by_cases hc18 : c = '\t'
  · rw [if_pos hc18]
    exact skipStep_spec line none hg (by rw [hc18]; decide)
  rw [if_neg hc18]
  by_cases hc19 : c = '\n'
  · rw [if_pos hc19]
    rw [hc19] at hg
    exact newlineStep_spec line hg
  rw [if_neg hc19]
  by_cases hc20 : c = '"'
  · rw [if_pos hc20]
    rw [hc20] at hg
    exact stringTok_spec line hg
  rw [if_neg hc20]
  by_cases hdig : isDigitC c
  · rw [if_pos hdig]
    exact numberTok_spec line hg hdig
  rw [if_neg hdig]
  by_cases halp : isAlphaC c
  · rw [if_pos halp]
    exact identTok_spec line hg halp
  rw [if_neg halp]
  exact skipStep_spec line _ hg hc19

theorem scanLoop_inv (src : List Char) :
    ∀ fuel cur line, cur ≤ src.length → line = lineOfIndex src cur →
      ∀ t ∈ (scanLoop src fuel cur line).1,
        ∃ i j, i ≤ j ∧ j ≤ src.length ∧ t.lexeme = slice src i j ∧
          t.line = lineOfIndex src j := by
  intro fuel
  induction fuel with
  | zero =>
    intro cur line hc hl t ht
    simp only [scanLoop, List.mem_singleton] at ht
    subst ht
    exact ⟨cur, cur, le_rfl, hc, (slice_self src cur).symm, hl⟩
  | succ n ih =>
    intro cur line hc hl t ht
    by_cases hlt : cur < src.length
    · rw [scanLoop, if_pos hlt] at ht
      obtain ⟨p1, p2, p3, p4⟩ := scanToken_spec src cur line hlt
      have hline2 : (scanToken src cur line).line =
          lineOfIndex src (scanToken src cur line).current := by
        unfold lineOfIndex at hl ⊢
        omega
      rcases List.mem_append.mp ht with htok | hrest
      · cases hmt : (scanToken src cur line).tok with
        | none =>
          rw [hmt] at htok
          cases htok
        | some tk =>
          rw [hmt] at htok
          simp only [Option.toList_some, List.mem_singleton] at htok
          subst htok
          obtain ⟨hlex, hln⟩ := p4 t hmt
          exact ⟨cur, (scanToken src cur line).current, le_of_lt p1, p2, hlex,
            by rw [hln, hline2]⟩
      · exact ih (scanToken src cur line).current (scanToken src cur line).line
          p2 hline2 t hrest
    · rw [scanLoop, if_neg hlt] at ht
      simp only [List.mem_singleton] at ht
      subst ht
      exact ⟨cur, cur, le_rfl, hc, (slice_self src cur).symm, hl⟩

/-- C4: as stated, the claim is false: on the two-line source `"a\nb"` the
scanner emits a STRING token whose lexeme is the entire five-character
source — so the first character of the lexeme occurs only at index 0, on
line 1 — yet the token is stamped with line 2 (`Scanner.#string` increments
`#line` while scanning the body and `#addToken` records the counter at
emission time). -/
theorem C4_counterexample :
    (scanTokens ("\"a\nb\"".toList)).1.head? =
      some ⟨.STRING, "\"a\nb\"".toList, .strLit ("a\nb".toList), 2⟩ ∧
    ("\"a\nb\"".toList).length = 5 ∧
    lineOfIndex ("\"a\nb\"".toList) 0 = 1 ∧
    ((List.range 6).all fun i =>
      !(decide (slice ("\"a\nb\"".toList) i (i + 5) = "\"a\nb\"".toList)) ||
        decide (i = 0)) = true := by
  decide

/-- C4 (amended): for every source string and every token the scanner
produces from it, the token's lexeme is a contiguous substring of the
source, and the token's line number equals the scanner's line counter when
the token is emitted — the source line of the end of the lexeme.  Whenever
the lexeme contains no newline (every token except a multi-line string
literal), this equals the source line of the first character of the lexeme,
as originally claimed. -/
theorem C4_scanner_lexeme_line (src : List Char) (t : Token)
    (ht : t ∈ (scanTokens src).1) :
    ∃ i j, i ≤ j ∧ j ≤ src.length ∧ t.lexeme = slice src i j ∧
      src.take i ++ t.lexeme ++ src.drop j = src ∧
      t.line = lineOfIndex src j ∧
      ('\n' ∉ t.lexeme → t.line = lineOfIndex src i) := by
  obtain ⟨i, j, hij, hj, hlex, hline⟩ :=
    scanLoop_inv src (src.length + 1) 0 1 (Nat.zero_le _) rfl t ht
  refine ⟨i, j, hij, hj, hlex, ?_, hline, ?_⟩
  · rw [hlex]
    exact source_decomp hij
  · intro hnl
    have hfil : (slice src i j).filter (fun c => c = '\n') = [] := by
      rw [List.filter_eq_nil_iff]
      intro a ha hdec
      have ha2 : a = '\n' := by simpa using hdec
      subst ha2
      rw [hlex] at hnl
      exact hnl ha
    rw [hline]
    unfold lineOfIndex
    rw [nlCount_slice hij, hfil]
    rfl

/-- C4 witness: the amended theorem applied to the one-character source
`x` and its IDENTIFIER token. -/
theorem C4_witness :
    (⟨.IDENTIFIER, "x".toList, .nullLit, 1⟩ : Token) ∈ (scanTokens ("x".toList)).1 ∧
    (∃ i j, i ≤ j ∧ j ≤ ("x".toList).length ∧
      (Token.mk .IDENTIFIER ("x".toList) .nullLit 1).lexeme = slice ("x".toList) i j ∧
      ("x".toList).take i ++ (Token.mk .IDENTIFIER ("x".toList) .nullLit 1).lexeme ++
        ("x".toList).drop j = "x".toList ∧
      (Token.mk .IDENTIFIER ("x".toList) .nullLit 1).line = lineOfIndex ("x".toList) j ∧
      ('\n' ∉ (Token.mk .IDENTIFIER ("x".toList) .nullLit 1).lexeme →
        (Token.mk .IDENTIFIER ("x".toList) .nullLit 1).line = lineOfIndex ("x".toList) i)) :=
  ⟨by decide, C4_scanner_lexeme_line ("x".toList) ⟨.IDENTIFIER, "x".toList, .nullLit, 1⟩
    (by decide)⟩

/-- A Lox runtime value (value.ts): nil, boolean, number, string, or a
reference to a heap object — the native clock, a user function, a class, or
an instance.  Heap references carry the allocation index of the object in
the interpreter state, modelling JS object identity. -/
inductive Value where
  | nil
  | bool (b : Bool)
  | num (n : JsNum)
  | str (s : List Char)
  | clockRef
  | fnRef (id : Nat)
  | classRef (id : Nat)
  | instRef (id : Nat)
deriving DecidableEq, Repr

/-- Expression AST nodes (expression.js).  `variable`, `assign` and
`thisExpr` carry a numeric `id` rendering the stable JS object identity of
the node, which keys the resolver's hop-count map. -/
inductive Expr where
  | assign (id : Nat) (name : Token) (value : Expr)
  | binary (left : Expr) (operator : Token) (right : Expr)
  | call (callee : Expr) (paren : Token) (args : List Expr)
  | getExpr (object : Expr) (name : Token)
  | grouping (expression : Expr)
  | literal (value : Value)
  | logical (left : Expr) (operator : Token) (right : Expr)
  | setExpr (object : Expr) (name : Token) (value : Expr)
  | ternary (cond trueExpr falseExpr : Expr)
  | unary (operator : Token) (right : Expr)
  | thisExpr (id : Nat) (keyword : Token)
  | variable (id : Nat) (name : Token)

mutual
/-- Statement AST nodes (statement.js; the file is absent from the dump, its
shape follows the parser's constructor calls and spec section 3). -/
inductive Stmt where
  | block (statements : List Stmt)
  | classDecl (name : Token) (methods : List FnDecl)
  | expression (e : Expr)
  | funDecl (d : FnDecl)
  | ifStmt (condition : Expr) (thenBranch : Stmt) (elseBranch : Option Stmt)
  | print (e : Expr)
  | returnStmt (keyword : Token) (value : Option Expr)
  | varDecl (name : Token) (declInit : Option Expr)
  | whileStmt (condition : Expr) (body : Stmt)

/-- A function declaration `FunctionDecl(name, params, body)`. -/
inductive FnDecl where
  | mk (name : Token) (params : List Token) (body : List Stmt)
end

/-- Name of a declared function. -/
def FnDecl.name : FnDecl → Token
  | .mk n _ _ => n

/-- Parameter list of a declared function. -/
def FnDecl.params : FnDecl → List Token
  | .mk _ p _ => p

/-- Body of a declared function. -/
def FnDecl.body : FnDecl → List Stmt
  | .mk _ _ b => b

/-- Maximum parameter/argument count, FUNCTION_MAX_ARGS of constants.js
(the file is absent from the dump; the value 255 is the spec's, section 4.2). -/
def FUNCTION_MAX_ARGS : Nat := 255

/-- Parser state: the token array, the `#current` cursor, a counter
allocating identities for resolvable nodes (each `new Variable`,
`new Assign`, `new This` in JS yields a distinct object), and the
diagnostics recorded so far through the Reporter as `(line, message)`. -/
structure PSt where
  tokens : List Token
  current : Nat
  nextId : Nat
  errors : List (Nat × String)
deriving Repr

/-- Result of a parsing function: success, a thrown ParseError (already
recorded in the state's reporter), or fuel exhaustion. -/
inductive PRes (α : Type) where
  | ok (a : α) (st : PSt)
  | perr (st : PSt)
  | timeout
deriving Repr

/-- Fallback token (Parser.#peek and #previous throw when out of range; with
an EOF-terminated token list this is unreachable). -/
def fallbackToken : Token := ⟨.EOF, [], .nullLit, 0⟩

/-- Parser.#peek. -/
def pPeek (st : PSt) : Token := st.tokens.getD st.current fallbackToken

/-- Parser.#previous. -/
def pPrevious (st : PSt) : Token := st.tokens.getD (st.current - 1) fallbackToken

/-- Parser.#isAtEnd. -/
def pIsAtEnd (st : PSt) : Bool := (pPeek st).type = .EOF

/-- Parser.#check: whether the current token has the given type (false past
the end of the array). -/
def pCheck (t : TokenType) (st : PSt) : Bool :=
  match st.tokens.get? st.current with
  | none => false
  | some tok => tok.type = t

/-- Parser.#advance: consume the current token unless at EOF. -/
def pAdvance (st : PSt) : PSt :=
  if pIsAtEnd st then st else { st with current := st.current + 1 }

/-- Parser.#match over a list of token types: consume the current token if
its type is listed. -/
def pMatch (types : List TokenType) (st : PSt) : Bool × PSt :=
  match st.tokens.get? st.current with
  | none => (false, st)
  | some tok => if tok.type ∈ types then (true, pAdvance st) else (false, st)

/-- Parser.#error: record the diagnostic through the Reporter; the returned
ParseError is thrown or discarded by the caller. -/
def pError (tok : Token) (msg : String) (st : PSt) : PSt :=
  { st with errors := st.errors ++ [(tok.line, msg)] }

/-- Parser.#consume: take the expected token or throw a ParseError. -/
def pConsume (t : TokenType) (msg : String) (st : PSt) : PRes Token :=
  if pCheck t st then .ok (pPrevious (pAdvance st)) (pAdvance st)
  else .perr (pError (pPeek st) msg st)

/-- Literal value carried from a NUMBER/STRING token into a Literal node. -/
def litOfTLit : TLit → Value
  | .nullLit => .nil
  | .numLit n => .num n
  | .strLit s => .str s

mutual
/-- Parser.#expression: `expression → comma`. -/
def pExpression : Nat → PSt → PRes Expr
  | 0, _ => .timeout
  | n + 1, st => pComma n st

/-- Parser.#comma: `comma → ternary ( "," ternary )*`. -/
def pComma : Nat → PSt → PRes Expr
  | 0, _ => .timeout
  | n + 1, st =>
    match pTernary n st with
    | .ok e st1 => pCommaRest n e st1
    | r => r

/-- The `while (this.#match("COMMA"))` loop of Parser.#comma. -/
def pCommaRest : Nat → Expr → PSt → PRes Expr
  | 0, _, _ => .timeout
  | n + 1, e, st =>
    match pMatch [.COMMA] st with
    | (true, st1) =>
      match pTernary n st1 with
      | .ok r st2 => pCommaRest n (.binary e (pPrevious st1) r) st2
      | r => r
    | (false, st1) => .ok e st1

/-- Parser.#ternary: `ternary → assignment ( "?" assignment ":" assignment )*`.
The JS loop keeps a `lastTernary` pointer and, for each subsequent ternary,
mutates `lastTernary.falseExpr` to hang the new Ternary node there; the
functional rendering builds the same right-nested tree by letting
`pTernaryRest` parse the continuation of the pending false expression. -/
def pTernary : Nat → PSt → PRes Expr
  | 0, _ => .timeout
  | n + 1, st =>
    match pAssignment n st with
    | .ok first st1 => pTernaryRest n first st1
    | r => r

/-- The `while (this.#match("QUESTION"))` loop of Parser.#ternary: `pending`
is the expression that becomes the ternary's condition if a `?` follows
(exactly the node the JS code would overwrite `lastTernary.falseExpr` with). -/
def pTernaryRest : Nat → Expr → PSt → PRes Expr
  | 0, _, _ => .timeout
  | n + 1, pending, st =>
    match pMatch [.QUESTION] st with
    | (true, st1) =>
      match pAssignment n st1 with
      | .ok t st2 =>
        match pConsume .COLON "Expected ':' after '?' in ternary expression." st2 with
        | .ok _ st3 =>
          match pAssignment n st3 with
          | .ok f st4 =>
            match pTernaryRest n f st4 with
            | .ok tail st5 => .ok (.ternary pending t tail) st5
            | r => r
          | r => r
        | .perr st3 => .perr st3
        | .timeout => .timeout
      | r => r
    | (false, st1) => .ok pending st1

/-- Parser.#assignment: parse `or`, then on `=` recurse and validate the
assignment target (Variable → Assign, GetExpr → SetExpr, otherwise a
recorded but unthrown "Invalid assignment target." diagnostic). -/
def pAssignment : Nat → PSt → PRes Expr
  | 0, _ => .timeout
  | n + 1, st =>
    match pOr n st with
    | .ok e st1 =>
      match pMatch [.EQUAL] st1 with
      | (true, st2) =>
        match pAssignment n st2 with
        | .ok v st3 =>
          match e with
          | .variable _ name =>
            .ok (.assign st3.nextId name v) { st3 with nextId := st3.nextId + 1 }
          | .getExpr obj name => .ok (.setExpr obj name v) st3
          | _ => .ok e (pError (pPrevious st2) "Invalid assignment target." st3)
        | r => r
      | (false, st2) => .ok e st2
    | r => r

/-- Parser.#or. -/
def pOr : Nat → PSt → PRes Expr
  | 0, _ => .timeout
  | n + 1, st =>
    match pAnd n st with
    | .ok e st1 => pOrRest n e st1
    | r => r

/-- The `while (this.#match("OR"))` loop of Parser.#or. -/
def pOrRest : Nat → Expr → PSt → PRes Expr
  | 0, _, _ => .timeout
  | n + 1, e, st =>
    match pMatch [.OR] st with
    | (true, st1) =>
      match pAnd n st1 with
      | .ok r st2 => pOrRest n (.logical e (pPrevious st1) r) st2
      | r => r
    | (false, st1) => .ok e st1

/-- Parser.#and. -/
def pAnd : Nat → PSt → PRes Expr
  | 0, _ => .timeout
  | n + 1, st =>
    match pEquality n st with
    | .ok e st1 => pAndRest n e st1
    | r => r

/-- The `while (this.#match("AND"))` loop of Parser.#and. -/
def pAndRest : Nat → Expr → PSt → PRes Expr
  | 0, _, _ => .timeout
  | n + 1, e, st =>
    match pMatch [.AND] st with
    | (true, st1) =>
      match pEquality n st1 with
      | .ok r st2 => pAndRest n (.logical e (pPrevious st1) r) st2
      | r => r
    | (false, st1) => .ok e st1

/-- Parser.#equality. -/
def pEquality : Nat → PSt → PRes Expr
  | 0, _ => .timeout
  | n + 1, st =>
    match pComparison n st with
    | .ok e st1 => pEqualityRest n e st1
    | r => r

/-- The `while (this.#match("BANG_EQUAL", "EQUAL_EQUAL"))` loop. -/
def pEqualityRest : Nat → Expr → PSt → PRes Expr
  | 0, _, _ => .timeout
  | n + 1, e, st =>
    match pMatch [.BANG_EQUAL, .EQUAL_EQUAL] st with
    | (true, st1) =>
      match pComparison n st1 with
      | .ok r st2 => pEqualityRest n (.binary e (pPrevious st1) r) st2
      | r => r
    | (false, st1) => .ok e st1

/-- Parser.#comparison. -/
def pComparison : Nat → PSt → PRes Expr
  | 0, _ => .timeout
  | n + 1, st =>
    match pTerm n st with
    | .ok e st1 => pComparisonRest n e st1
    | r => r

/-- The `while (this.#match("LESS", "LESS_EQUAL", "GREATER", "GREATER_EQUAL"))`
loop. -/
def pComparisonRest : Nat → Expr → PSt → PRes Expr
  | 0, _, _ => .timeout
  | n + 1, e, st =>
    match pMatch [.LESS, .LESS_EQUAL, .GREATER, .GREATER_EQUAL] st with
    | (true, st1) =>
      match pTerm n st1 with
      | .ok r st2 => pComparisonRest n (.binary e (pPrevious st1) r) st2
      | r => r
    | (false, st1) => .ok e st1

/-- Parser.#term. -/
def pTerm : Nat → PSt → PRes Expr
  | 0, _ => .timeout
  | n + 1, st =>
    match pFactor n st with
    | .ok e st1 => pTermRest n e st1
    | r => r

/-- The `while (this.#match("MINUS", "PLUS"))` loop. -/
def pTermRest : Nat → Expr → PSt → PRes Expr
  | 0, _, _ => .timeout
  | n + 1, e, st =>
    match pMatch [.MINUS, .PLUS] st with
    | (true, st1) =>
      match pFactor n st1 with
      | .ok r st2 => pTermRest n (.binary e (pPrevious st1) r) st2
      | r => r
    | (false, st1) => .ok e st1

/-- Parser.#factor. -/
def pFactor : Nat → PSt → PRes Expr
  | 0, _ => .timeout
  | n + 1, st =>
    match pUnary n st with
    | .ok e st1 => pFactorRest n e st1
    | r => r

/-- The `while (this.#match("SLASH", "STAR"))` loop. -/
def pFactorRest : Nat → Expr → PSt → PRes Expr
  | 0, _, _ => .timeout
  | n + 1, e, st =>
    match pMatch [.SLASH, .STAR] st with
    | (true, st1) =>
      match pUnary n st1 with
      | .ok r st2 => pFactorRest n (.binary e (pPrevious st1) r) st2
      | r => r
    | (false, st1) => .ok e st1

/-- Parser.#unary. -/
def pUnary : Nat → PSt → PRes Expr
  | 0, _ => .timeout
  | n + 1, st =>
    match pMatch [.BANG, .MINUS] st with
    | (true, st1) =>
      match pUnary n st1 with
      | .ok r st2 => .ok (.unary (pPrevious st1) r) st2
      | r => r
    | (false, st1) => pCall n st1

/-- Parser.#call. -/
def pCall : Nat → PSt → PRes Expr
  | 0, _ => .timeout
  | n + 1, st =>
    match pPrimary n st with
    | .ok e st1 => pCallLoop n e st1
    | r => r

/-- The `while (true)` loop of Parser.#call: call suffixes and property
accesses. -/
def pCallLoop : Nat → Expr → PSt → PRes Expr
  | 0, _, _ => .timeout
  | n + 1, e, st =>
    match pMatch [.LEFT_PAREN] st with
    | (true, st1) =>
      match pFinishCall n e st1 with
      | .ok e2 st2 => pCallLoop n e2 st2
      | r => r
    | (false, _) =>
      match pMatch [.DOT] st with
      | (true, st1) =>
        match pConsume .IDENTIFIER "Expected property name after '.'." st1 with
        | .ok name st2 => pCallLoop n (.getExpr e name) st2
        | .perr st2 => .perr st2
        | .timeout => .timeout
      | (false, st1) => .ok e st1

/-- Parser.#finishCall: arguments (each parsed at `ternary` level, so commas
separate arguments) and the closing paren. -/
def pFinishCall : Nat → Expr → PSt → PRes Expr
  | 0, _, _ => .timeout
  | n + 1, callee, st =>
    match (if pCheck .RIGHT_PAREN st then PRes.ok ([] : List Expr) st
           else pArgsLoop n [] st) with
    | .ok args st1 =>
      match pConsume .RIGHT_PAREN "Expected ')' after arguments." st1 with
      | .ok paren st2 => .ok (.call callee paren args) st2
      | .perr st2 => .perr st2
      | .timeout => .timeout
    | .perr st1 => .perr st1
    | .timeout => .timeout

/-- The `do { ... } while (this.#match("COMMA"))` loop of Parser.#finishCall. -/
def pArgsLoop : Nat → List Expr → PSt → PRes (List Expr)
  | 0, _, _ => .timeout
  | n + 1, args, st =>
    match (if args.length ≥ FUNCTION_MAX_ARGS then
            pError (pPeek st) "Cannot have more than 255 arguments." st
          else st) with
    | st1 =>
      match pTernary n st1 with
      | .ok a st2 =>
        match pMatch [.COMMA] st2 with
        | (true, st3) => pArgsLoop n (args ++ [a]) st3
        | (false, st3) => .ok (args ++ [a]) st3
      | .perr st2 => .perr st2
      | .timeout => .timeout

/-- Parser.#primary. -/
def pPrimary : Nat → PSt → PRes Expr
  | 0, _ => .timeout
  | n + 1, st =>
    match pMatch [.NUMBER, .STRING] st with
    | (true, st1) => .ok (.literal (litOfTLit (pPrevious st1).literal)) st1
    | (false, _) =>
    match pMatch [.FALSE] st with
    | (true, st1) => .ok (.literal (.bool false)) st1
    | (false, _) =>
    match pMatch [.TRUE] st with
    | (true, st1) => .ok (.literal (.bool true)) st1
    | (false, _) =>
    match pMatch [.NIL] st with
    | (true, st1) => .ok (.literal .nil) st1
    | (false, _) =>
    match pMatch [.THIS] st with
    | (true, st1) =>
      .ok (.thisExpr st1.nextId (pPrevious st1)) { st1 with nextId := st1.nextId + 1 }
    | (false, _) =>
    match pMatch [.IDENTIFIER] st with
    | (true, st1) =>
      .ok (.variable st1.nextId (pPrevious st1)) { st1 with nextId := st1.nextId + 1 }
    | (false, _) =>
    match pMatch [.LEFT_PAREN] st with
    | (true, st1) =>
      match pExpression n st1 with
      | .ok e st2 =>
        match pConsume .RIGHT_PAREN "Expected ')' after expression." st2 with
        | .ok _ st3 => .ok (.grouping e) st3
        | .perr st3 => .perr st3
        | .timeout => .timeout
      | r => r
    | (false, st1) => .perr (pError (pPeek st1) "Expected expression." st1)
end

/-- C5: whenever the assignment-level parser yields `A`, then a `?`, `B`,
`:`, `C`, another `?`, `D`, `:`, `E`, and no further `?` follows, the
ternary level produces the right-nested tree `Ternary(A, B, Ternary(C, D, E))`:
each subsequent ternary is attached under the `falseExpr` of the previous
one, exactly as Parser.#ternary's `lastTernary.falseExpr` rewiring does. -/
theorem C5_ternary_right_nested
    (n : Nat) (st st0 st1 st2 st3 st4 st5 st6 st7 st8 st9 : PSt)
    (A B C D E : Expr) (tk1 tk2 : Token)
    (h0 : pAssignment (n + 3) st = .ok A st0)
    (hq1 : pMatch [.QUESTION] st0 = (true, st1))
    (h1 : pAssignment (n + 2) st1 = .ok B st2)
    (hc1 : pConsume .COLON "Expected ':' after '?' in ternary expression." st2 =
      .ok tk1 st3)
    (h2 : pAssignment (n + 2) st3 = .ok C st4)
    (hq2 : pMatch [.QUESTION] st4 = (true, st5))
    (h3 : pAssignment (n + 1) st5 = .ok D st6)
    (hc2 : pConsume .COLON "Expected ':' after '?' in ternary expression." st6 =
      .ok tk2 st7)
    (h4 : pAssignment (n + 1) st7 = .ok E st8)
    (hq3 : pMatch [.QUESTION] st8 = (false, st9)) :
    pTernary (n + 4) st = .ok (.ternary A B (.ternary C D E)) st9 := by
  simp only [pTernary, h0]
  simp only [pTernaryRest, hq1, h1, hc1, h2, hq2, h3, hc2, h4, hq3]

/-- Token list for the C5 witness: `1 ? 2 : 3 ? 4 : 5`. -/
def c5Toks : List Token :=
  [⟨.NUMBER, "1".toList, .numLit (.finite 1), 1⟩, ⟨.QUESTION, "?".toList, .nullLit, 1⟩,
   ⟨.NUMBER, "2".toList, .numLit (.finite 2), 1⟩, ⟨.COLON, ":".toList, .nullLit, 1⟩,
   ⟨.NUMBER, "3".toList, .numLit (.finite 3), 1⟩, ⟨.QUESTION, "?".toList, .nullLit, 1⟩,
   ⟨.NUMBER, "4".toList, .numLit (.finite 4), 1⟩, ⟨.COLON, ":".toList, .nullLit, 1⟩,
   ⟨.NUMBER, "5".toList, .numLit (.finite 5), 1⟩, ⟨.EOF, [], .nullLit, 1⟩]

/-- Parser state over the C5 witness tokens with cursor `k`. -/
def c5St (k : Nat) : PSt := ⟨c5Toks, k, 0, []⟩

/-- C5 witness: the chain theorem applied to the concrete token sequence
`1 ? 2 : 3 ? 4 : 5`, discharging every hypothesis by computation. -/
theorem C5_witness :
    pAssignment 29 (c5St 0) = .ok (.literal (.num (.finite 1))) (c5St 1) ∧
    pMatch [.QUESTION] (c5St 1) = (true, c5St 2) ∧
    pAssignment 28 (c5St 2) = .ok (.literal (.num (.finite 2))) (c5St 3) ∧
    pMatch [.QUESTION] (c5St 9) = (false, c5St 9) ∧
    pTernary 30 (c5St 0) =
      .ok (.ternary (.literal (.num (.finite 1))) (.literal (.num (.finite 2)))
        (.ternary (.literal (.num (.finite 3))) (.literal (.num (.finite 4)))
          (.literal (.num (.finite 5))))) (c5St 9) :=
  ⟨by rfl, by rfl, by rfl, by rfl,
    @C5_ternary_right_nested 26 (c5St 0) (c5St 1) (c5St 2) (c5St 3) (c5St 4)
      (c5St 5) (c5St 6) (c5St 7) (c5St 8) (c5St 9) (c5St 9)
      (.literal (.num (.finite 1))) (.literal (.num (.finite 2)))
      (.literal (.num (.finite 3))) (.literal (.num (.finite 4)))
      (.literal (.num (.finite 5)))
      ⟨.COLON, ":".toList, .nullLit, 1⟩ ⟨.COLON, ":".toList, .nullLit, 1⟩
      (by rfl) (by rfl) (by rfl) (by rfl) (by rfl) (by rfl) (by rfl) (by rfl)
      (by rfl) (by rfl)⟩

/-- Resolver state (resolver.js, the class-aware revision): the stack of
scope maps (head = innermost, i.e. the JS array's `at(-1)`), the current
function and class kinds (the JS string unions), the hop-count map the
resolver feeds to the interpreter via `interpreter.resolve(expr, depth)`
(node id, hop count), and the Reporter's recorded diagnostics. -/
structure RSt where
  scopes : List (List (List Char × Bool))
  currentFunction : String
  currentClass : String
  locals : List (Nat × Nat)
  errors : List (Nat × String)
deriving DecidableEq, Repr

/-- Result of a resolver step: either the new state, or a thrown JS `Error`
(message) together with the state at the moment of the throw — the throw is
not caught anywhere, so resolution aborts with the Reporter in that state. -/
abbrev RRes := Except (String × RSt) RSt

/-- Record a diagnostic through the Reporter (reporter.error(token, msg)). -/
def rErr (tok : Token) (msg : String) (st : RSt) : RSt :=
  { st with errors := st.errors ++ [(tok.line, msg)] }

/-- Map update for a scope: JS `Map.set` overwrites an existing key in place
and appends a new one. -/
def scopeSet (s : List (List Char × Bool)) (name : List Char) (b : Bool) :
    List (List Char × Bool) :=
  if (s.lookup name).isSome then
    s.map (fun p => if p.1 == name then (p.1, b) else p)
  else s ++ [(name, b)]

/-- Resolver.#declare: a no-op at global scope; in a local scope, adds the
name marked not-yet-defined, or throws an Error if the name is already there
(the JS code detects this by `scope.size` not growing across `scope.set`). -/
def rDeclare (name : Token) (st : RSt) : RRes :=
  match st.scopes with
  | [] => .ok st
  | s :: rest =>
    if (s.lookup name.lexeme).isSome then
      .error ("Variable '" ++ String.mk name.lexeme ++ "' already declared in this scope.", st)
    else .ok { st with scopes := (s ++ [(name.lexeme, false)]) :: rest }

/-- Resolver.#define: marks a declared name as defined; throws an Error when
the name is missing or already defined. -/
def rDefine (name : Token) (st : RSt) : RRes :=
  match st.scopes with
  | [] => .ok st
  | s :: rest =>
    match s.lookup name.lexeme with
    | none => .error ("Variable '" ++ String.mk name.lexeme ++ "' not declared.", st)
    | some true =>
      .error ("Variable '" ++ String.mk name.lexeme ++ "' already defined in this scope.", st)
    | some false => .ok { st with scopes := (scopeSet s name.lexeme true) :: rest }

/-- Resolver.#beginScope. -/
def rBeginScope (st : RSt) : RSt := { st with scopes := [] :: st.scopes }

/-- Resolver.#endScope (throws on an empty stack). -/
def rEndScope (st : RSt) : RRes :=
  match st.scopes with
  | [] => .error ("Scope stack is empty.", st)
  | _ :: rest => .ok { st with scopes := rest }

/-- Depth of the innermost scope containing `name` (0 = innermost), the walk
of Resolver.#resolveLocal. -/
def findScopeDepth : List (List (List Char × Bool)) → List Char → Option Nat
  | [], _ => none
  | s :: rest, nm =>
    if (s.lookup nm).isSome then some 0
    else (findScopeDepth rest nm).map (· + 1)

/-- Resolver.#resolveLocal: on the first scope containing the name, feed the
hop count to the interpreter (Interpreter.resolve appends to the hop map);
record nothing when no scope has it (the global fallback). -/
def rResolveLocal (id : Nat) (name : Token) (st : RSt) : RSt :=
  match findScopeDepth st.scopes name.lexeme with
  | some d => { st with locals := st.locals ++ [(id, d)] }
  | none => st

mutual
/-- Resolver statement dispatch (visitBlock .. visitWhile of resolver.js). -/
def resolveStmt : Nat → Stmt → RSt → RRes
  | 0, _, st => .error ("resolver out of fuel", st)
  | n + 1, stmt, st =>
    match stmt with
    | .block stmts => do
      let st1 ← resolveStmts n stmts (rBeginScope st)
      rEndScope st1
    | .classDecl name methods => do
      let st0 := { st with currentClass := "class" }
      let st1 ← rDeclare name st0
      let st2 ← rDefine name st1
      let st3 := { st2 with scopes := [("this".toList, true)] :: st2.scopes }
      let st4 ← resolveMethods n methods st3
      let st5 ← rEndScope st4
      .ok { st5 with currentClass := st.currentClass }
    | .expression e => resolveExpr n e st
    | .funDecl d => do
      let st1 ← rDeclare d.name st
      let st2 ← rDefine d.name st1
      resolveFunction n d "function" st2
    | .ifStmt c t e => do
      let st1 ← resolveExpr n c st
      let st2 ← resolveStmt n t st1
      match e with
      | some els => resolveStmt n els st2
      | none => .ok st2
    | .print e => resolveExpr n e st
    | .returnStmt keyword value =>
      let st1 := if st.currentFunction == "none" then
        rErr keyword "Can't return from top-level code." st else st
      match value with
      | some v =>
        let st2 := if st1.currentFunction == "initializer" then
          rErr keyword "Can't return a value from an initializer." st1 else st1
        resolveExpr n v st2
      | none => .ok st1
    | .varDecl name declInit => do
      let st1 ← rDeclare name st
      let st2 ← match declInit with
        | some e => resolveExpr n e st1
        | none => .ok st1
      rDefine name st2
    | .whileStmt c b => do
      let st1 ← resolveExpr n c st
      resolveStmt n b st1

/-- Resolver.resolve over a statement list. -/
def resolveStmts : Nat → List Stmt → RSt → RRes
  | 0, _, st => .error ("resolver out of fuel", st)
  | _ + 1, [], st => .ok st
  | n + 1, s :: rest, st => do
    let st1 ← resolveStmt n s st
    resolveStmts n rest st1

/-- The method loop of visitClass: each method is resolved as an
"initializer" when its name is `init`, else as a "method". -/
def resolveMethods : Nat → List FnDecl → RSt → RRes
  | 0, _, st => .error ("resolver out of fuel", st)
  | _ + 1, [], st => .ok st
  | n + 1, m :: rest, st => do
    let kind := if m.name.lexeme == "init".toList then "initializer" else "method"
    let st1 ← resolveFunction n m kind st
    resolveMethods n rest st1

/-- Resolver.#resolveFunction: push the function kind and a scope, declare
and define the parameters, resolve the body, pop, restore the kind. -/
def resolveFunction : Nat → FnDecl → String → RSt → RRes
  | 0, _, _, st => .error ("resolver out of fuel", st)
  | n + 1, d, kind, st => do
    let st1 := rBeginScope { st with currentFunction := kind }
    let st2 ← resolveParams n d.params st1
    let st3 ← resolveStmts n d.body st2
    let st4 ← rEndScope st3
    .ok { st4 with currentFunction := st.currentFunction }

/-- The parameter loop of Resolver.#resolveFunction. -/
def resolveParams : Nat → List Token → RSt → RRes
  | 0, _, st => .error ("resolver out of fuel", st)
  | _ + 1, [], st => .ok st
  | n + 1, p :: rest, st => do
    let st1 ← rDeclare p st
    let st2 ← rDefine p st1
    resolveParams n rest st2

/-- Resolver expression dispatch (visitAssign .. visitVariable). -/
def resolveExpr : Nat → Expr → RSt → RRes
  | 0, _, st => .error ("resolver out of fuel", st)
  | n + 1, e, st =>
    match e with
    | .assign id name value => do
      let st1 ← resolveExpr n value st
      .ok (rResolveLocal id name st1)
    | .binary l _ r => do
      let st1 ← resolveExpr n l st
      resolveExpr n r st1
    | .call callee _ args => do
      let st1 ← resolveExpr n callee st
      resolveExprs n args st1
    | .getExpr obj _ => resolveExpr n obj st
    | .grouping g => resolveExpr n g st
    | .literal _ => .ok st
    | .logical l _ r => do
      let st1 ← resolveExpr n l st
      resolveExpr n r st1
    | .setExpr obj _ value => do
      let st1 ← resolveExpr n value st
      resolveExpr n obj st1
    | .ternary c t f => do
      let st1 ← resolveExpr n c st
      let st2 ← resolveExpr n t st1
      resolveExpr n f st2
    | .unary _ r => resolveExpr n r st
    | .thisExpr id keyword =>
      if st.currentClass == "none" then
        .ok (rErr keyword "Can't use 'this' outside of class." st)
      else .ok (rResolveLocal id keyword st)
    | .variable id name =>
      match st.scopes with
      | s :: _ =>
        if s.lookup name.lexeme == some false then
          .ok (rErr name "Can't read local variable in its own initializer." st)
        else .ok (rResolveLocal id name st)
      | [] => .ok (rResolveLocal id name st)

/-- Resolver.resolve over an expression list (call arguments). -/
def resolveExprs : Nat → List Expr → RSt → RRes
  | 0, _, st => .error ("resolver out of fuel", st)
  | _ + 1, [], st => .ok st
  | n + 1, e :: rest, st => do
    let st1 ← resolveExpr n e st
    resolveExprs n rest st1
end

/-- Run the resolver on a whole program from the initial state (as index.js
does: `new Resolver(interpreter, reporter); resolver.resolve(...statements)`). -/
def resolveProgram (fuel : Nat) (stmts : List Stmt) : RRes :=
  resolveStmts fuel stmts ⟨[], "none", "none", [], []⟩

/-- Identifier token for the C3 programs. -/
def c3NameTok : Token := ⟨.IDENTIFIER, "a".toList, .nullLit, 1⟩

/-- The program `{ var a; var a; }`: the same name declared twice in one
local scope. -/
def progDupLocal : List Stmt :=
  [.block [.varDecl c3NameTok none, .varDecl c3NameTok none]]

/-- The program `var a; var a;`: the same name declared twice at global
scope. -/
def progDupGlobal : List Stmt :=
  [.varDecl c3NameTok none, .varDecl c3NameTok none]

/-- C3, as stated, is false: on `{ var a; var a; }` the resolver
does not report through the Reporter and does not continue — Resolver.#declare
throws a plain JS `Error`, aborting resolution with the Reporter still empty
(no compile-error flag set). -/
theorem C3_counterexample :
    resolveProgram 50 progDupLocal =
      .error ("Variable 'a' already declared in this scope.",
        ⟨[[("a".toList, true)]], "none", "none", [], []⟩) ∧
    (match resolveProgram 50 progDupLocal with
      | .error (_, stc) => stc.errors
      | .ok stc => stc.errors) = [] := by
  constructor
  · rfl
  · rfl

/-- C3 (amended): declaring the same name twice in the same local scope
makes Resolver.#declare throw an uncaught JS `Error` ("already declared in
this scope"), aborting resolution; nothing is reported through the Reporter,
so the compile-error flag is not set.  Declaring the same name twice at
global scope is a no-op in `#declare` and reports no error: the resolver
completes with an empty diagnostics list. -/
theorem C3_duplicate_declaration :
    (∀ (name : Token) (st : RSt) (s : List (List Char × Bool))
        (rest : List (List (List Char × Bool))),
      st.scopes = s :: rest → (s.lookup name.lexeme).isSome = true →
      rDeclare name st =
        .error ("Variable '" ++ String.mk name.lexeme ++
          "' already declared in this scope.", st)) ∧
    (∀ (name : Token) (st : RSt), st.scopes = [] → rDeclare name st = .ok st) ∧
    resolveProgram 50 progDupLocal =
      .error ("Variable 'a' already declared in this scope.",
        ⟨[[("a".toList, true)]], "none", "none", [], []⟩) ∧
    resolveProgram 50 progDupGlobal = .ok ⟨[], "none", "none", [], []⟩ := by
  refine ⟨?_, ?_, ?_, ?_⟩
  · intro name st s rest hs hls
    unfold rDeclare
    rw [hs]
    simp [hls]
  · intro name st hs
    unfold rDeclare
    rw [hs]
  · rfl
  · rfl

/-- C3 witness: the amended theorem applied at the name `a`, once inside a
local scope that already declares `a` and once at global scope. -/
theorem C3_witness :
    rDeclare c3NameTok ⟨[[("a".toList, false)]], "none", "none", [], []⟩ =
      .error ("Variable 'a' already declared in this scope.",
        ⟨[[("a".toList, false)]], "none", "none", [], []⟩) ∧
    rDeclare c3NameTok ⟨[], "none", "none", [], []⟩ =
      .ok ⟨[], "none", "none", [], []⟩ :=
  ⟨C3_duplicate_declaration.1 c3NameTok _ _ _ rfl (by decide),
   C3_duplicate_declaration.2.1 c3NameTok _ rfl⟩

/-- A variable slot: the UNINITIALIZED placeholder symbol of environment.js,
or a value. -/
inductive Slot where
  | uninit
  | val (v : Value)
deriving DecidableEq, Repr

/-- One Environment object: its `#values` map and the optional `#enclosing`
environment (by store index). -/
structure EnvData where
  values : List (List Char × Slot)
  enclosing : Option Nat
deriving DecidableEq, Repr

/-- One LoxFunction object (function.js): `{#declaration, #closure,
#isInitializer}`; the closure is an environment index. -/
structure FnData where
  decl : FnDecl
  closure : Nat
  isInit : Bool

/-- One LoxClass object (class.js): `{name, #methods}`. -/
structure ClassData where
  name : List Char
  methods : List (List Char × FnData)

/-- One LoxInstance object (instance.js): `{#klass, #fields}`; the class is
held by reference (store index). -/
structure InstData where
  klass : Nat
  fields : List (List Char × Value)

/-- The interpreter state: append-only stores of heap objects (environment
chains, functions, classes, instances — a store index is a JS object
identity), the current environment (`#environment`; `#globals` is index 0),
the resolver-supplied hop map keyed by node identity, and the text printed
so far.  Reporter effects are read off the result instead. -/
structure St where
  envs : List EnvData
  fns : List FnData
  classes : List ClassData
  insts : List InstData
  curEnv : Nat
  locals : List (Nat × Nat)
  output : List String

/-- A runtime error (RuntimeError: token line and message) or a plain JS
Error (internal: uncaught, crashes interpret). -/
inductive Err where
  | runtime (line : Nat) (msg : String)
  | internal (msg : String)
deriving DecidableEq, Repr

/-- Outcome of evaluating/executing: a value, a thrown error, the
ReturnValue control-flow signal, or fuel exhaustion. -/
inductive Res (α : Type) where
  | ok (a : α)
  | err (e : Err)
  | ret (v : Value)
  | timeout
deriving DecidableEq, Repr

/-- JS Map.set on an association list: overwrite in place or append. -/
def assocSet {β : Type} (m : List (List Char × β)) (k : List Char) (v : β) :
    List (List Char × β) :=
  if (m.lookup k).isSome then
    m.map (fun p => if p.1 == k then (p.1, v) else p)
  else m ++ [(k, v)]

/-- The `#values` map of the environment with the given store index. -/
def envValues (st : St) (envId : Nat) : List (List Char × Slot) :=
  ((st.envs.get? envId).map (·.values)).getD []

/-- The `#enclosing` link of the environment with the given store index. -/
def envEnclosing (st : St) (envId : Nat) : Option Nat :=
  ((st.envs.get? envId).map (·.enclosing)).getD none

/-- Replace the `#values` map of an environment. -/
def envSetValues (st : St) (envId : Nat) (vals : List (List Char × Slot)) : St :=
  match st.envs.get? envId with
  | some e => { st with envs := st.envs.set envId { e with values := vals } }
  | none => st

/-- Environment.define: set the slot (`UNINITIALIZED` when the JS call site
passes no value); redefinition overwrites without complaint. -/
def envDefine (st : St) (envId : Nat) (name : List Char) (slot : Slot) : St :=
  envSetValues st envId (assocSet (envValues st envId) name slot)

/-- Environment.get: check this environment's map (uninitialized slot →
RuntimeError "is not initialized"), else walk to the enclosing environment,
else RuntimeError "Undefined variable".  Fueled chain walk. -/
def envGet : Nat → St → Nat → Token → Res Value
  | 0, _, _, _ => .timeout
  | n + 1, st, envId, name =>
    match (envValues st envId).lookup name.lexeme with
    | some .uninit =>
      .err (.runtime name.line
        ("Variable '" ++ String.mk name.lexeme ++ "' is not initialized."))
    | some (.val v) => .ok v
    | none =>
      match envEnclosing st envId with
      | some p => envGet n st p name
      | none =>
        .err (.runtime name.line
          ("Undefined variable '" ++ String.mk name.lexeme ++ "'."))

/-- Environment.assign: set where the name exists, else recurse into the
enclosing environment, else RuntimeError "Undefined variable". -/
def envAssign : Nat → St → Nat → Token → Value → Res Unit × St
  | 0, st, _, _, _ => (.timeout, st)
  | n + 1, st, envId, name, v =>
    if ((envValues st envId).lookup name.lexeme).isSome then
      (.ok (), envSetValues st envId (assocSet (envValues st envId) name.lexeme (.val v)))
    else
      match envEnclosing st envId with
      | some p => envAssign n st p name v
      | none =>
        (.err (.runtime name.line
          ("Undefined variable '" ++ String.mk name.lexeme ++ "'.")), st)

/-- Environment.#ancestor: jump up the chain exactly `distance` times,
throwing a plain Error when the chain is too short. -/
def ancestor : Nat → St → Nat → Res Nat
  | 0, _, envId => .ok envId
  | d + 1, st, envId =>
    match envEnclosing st envId with
    | some p => ancestor d st p
    | none => .err (.internal "Environment chain too short.")

/-- Environment.getAt: read the slot at exactly `distance` hops without
searching; a missing or uninitialized slot throws a plain Error (the
comments say this cannot happen when the Resolver works correctly). -/
def envGetAt (st : St) (d : Nat) (envId : Nat) (name : List Char) : Res Value :=
  match ancestor d st envId with
  | .ok a =>
    match (envValues st a).lookup name with
    | some (.val v) => .ok v
    | some .uninit =>
      .err (.internal ("Variable '" ++ String.mk name ++ "' is not initialized."))
    | none =>
      .err (.internal ("Variable '" ++ String.mk name ++ "' is not defined."))
  | .err e => .err e
  | .ret v => .ret v
  | .timeout => .timeout

/-- Environment.assignAt: set the slot at exactly `distance` hops (Map.set:
creates the entry if missing). -/
def envAssignAt (st : St) (d : Nat) (envId : Nat) (name : Token) (v : Value) :
    Res Unit × St :=
  match ancestor d st envId with
  | .ok a => (.ok (), envSetValues st a (assocSet (envValues st a) name.lexeme (.val v)))
  | .err e => (.err e, st)
  | .ret v2 => (.ret v2, st)
  | .timeout => (.timeout, st)

/-- Allocate a fresh Environment (new Environment(enclosing)). -/
def allocEnv (st : St) (enclosing : Option Nat) : Nat × St :=
  (st.envs.length, { st with envs := st.envs ++ [⟨[], enclosing⟩] })

/-- Allocate a fresh LoxFunction object. -/
def allocFn (st : St) (f : FnData) : Nat × St :=
  (st.fns.length, { st with fns := st.fns ++ [f] })

/-- Allocate a fresh LoxClass object. -/
def allocClass (st : St) (c : ClassData) : Nat × St :=
  (st.classes.length, { st with classes := st.classes ++ [c] })

/-- Allocate a fresh LoxInstance object (new LoxInstance(klass)). -/
def allocInst (st : St) (i : InstData) : Nat × St :=
  (st.insts.length, { st with insts := st.insts ++ [i] })

/-- LoxFunction.bindTo: a fresh environment child of the closure binding
`this` to the instance, wrapping the same declaration; returns the new
function's data, its fresh identity, and the updated state. -/
def bindTo (st : St) (f : FnData) (instId : Nat) : FnData × Nat × St :=
  let (envId, st1) := allocEnv st (some f.closure)
  let st2 := envDefine st1 envId ("this".toList) (.val (.instRef instId))
  let bound : FnData := ⟨f.decl, envId, f.isInit⟩
  let (fid, st3) := allocFn st2 bound
  (bound, fid, st3)

/-- LoxClass.findMethod via the class store. -/
def findMethod (st : St) (classId : Nat) (name : List Char) : Option FnData :=
  (st.classes.get? classId).bind (fun c => c.methods.lookup name)

/-- isTruthy (interpreter.js): everything except `false` and `nil`. -/
def isTruthy (v : Value) : Bool :=
  !(v == Value.bool false || v == Value.nil)

/-- JS strict equality on idealized doubles: NaN is unequal to itself. -/
def numStrictEq : JsNum → JsNum → Bool
  | .finite a, .finite b => a == b
  | .inf a, .inf b => a == b
  | _, _ => false

/-- JS `===` on Lox values: value equality for primitives, identity (store
index) for heap objects. -/
def jsStrictEq (l r : Value) : Bool :=
  match l, r with
  | .nil, .nil => true
  | .bool a, .bool b => a == b
  | .num a, .num b => numStrictEq a b
  | .str a, .str b => a == b
  | .clockRef, .clockRef => true
  | .fnRef a, .fnRef b => a == b
  | .classRef a, .classRef b => a == b
  | .instRef a, .instRef b => a == b
  | _, _ => false

/-- Number.isNaN on a Lox value. -/
def valueIsNaN : Value → Bool
  | .num .nan => true
  | _ => false

/-- isEqual (interpreter.js): `left === right || (Number.isNaN(left) &&
Number.isNaN(right))`. -/
def isEqual (l r : Value) : Bool :=
  jsStrictEq l r || (valueIsNaN l && valueIsNaN r)

/-- JS unary minus on idealized doubles. -/
def jsNeg : JsNum → JsNum
  | .finite q => .finite (-q)
  | .nan => .nan
  | .inf s => .inf (!s)

/-- JS addition on idealized doubles. -/
def jsAdd : JsNum → JsNum → JsNum
  | .nan, _ => .nan
  | _, .nan => .nan
  | .finite a, .finite b => .finite (a + b)
  | .inf s, .finite _ => .inf s
  | .finite _, .inf s => .inf s
  | .inf s, .inf t => if s == t then .inf s else .nan

/-- JS subtraction on idealized doubles. -/
def jsSub (a b : JsNum) : JsNum := jsAdd a (jsNeg b)

/-- JS multiplication on idealized doubles. -/
def jsMul : JsNum → JsNum → JsNum
  | .nan, _ => .nan
  | _, .nan => .nan
  | .finite a, .finite b => .finite (a * b)
  | .inf s, .finite b => if b = 0 then .nan else .inf (xor s (decide (b < 0)))
  | .finite a, .inf s => if a = 0 then .nan else .inf (xor s (decide (a < 0)))
  | .inf s, .inf t => .inf (xor s t)

/-- JS division on idealized doubles: `0/0` is NaN, `x/0` is signed
infinity for finite nonzero `x`. -/
def jsDiv : JsNum → JsNum → JsNum
  | .nan, _ => .nan
  | _, .nan => .nan
  | .finite a, .finite b =>
    if b = 0 then (if a = 0 then .nan else .inf (decide (a < 0))) else .finite (a / b)
  | .inf s, .finite b => .inf (xor s (decide (b < 0)))
  | .finite _, .inf _ => .finite 0
  | .inf _, .inf _ => .nan

/-- JS `<` on idealized doubles: false whenever NaN is involved. -/
def jsLt : JsNum → JsNum → Bool
  | .nan, _ => false
  | _, .nan => false
  | .finite a, .finite b => a < b
  | .inf s, .finite _ => s
  | .finite _, .inf s => !s
  | .inf s, .inf t => s && !t

/-- JS `<=` on idealized doubles: false whenever NaN is involved. -/
def jsLe : JsNum → JsNum → Bool
  | .nan, _ => false
  | _, .nan => false
  | .finite a, .finite b => a ≤ b
  | .inf s, .finite _ => s
  | .finite _, .inf s => !s
  | .inf s, .inf t => s || !t

/-- Decimal rendering of an idealized double.  The spec leaves number
formatting to the host (design note "Number stringification rules are
underspecified in the source"); no claim below prints a number. -/
def numToString : JsNum → String
  | .finite q => if q.den = 1 then toString q.num else toString q
  | .nan => "NaN"
  | .inf false => "Infinity"
  | .inf true => "-Infinity"

/-- stringify (interpreter.js): `nil` for null, otherwise JS String(value);
functions print as `<fn name>` (LoxFunction.toString), classes as their
name (LoxClass.toString), instances as `Name instance`
(LoxInstance.toString). -/
def stringify (st : St) (v : Value) : String :=
  match v with
  | .nil => "nil"
  | .bool b => if b then "true" else "false"
  | .num n => numToString n
  | .str s => String.mk s
  | .clockRef => "<native fn>"
  | .fnRef id =>
    match st.fns.get? id with
    | some f => "<fn " ++ String.mk f.decl.name.lexeme ++ ">"
    | none => "<fn>"
  | .classRef id =>
    match st.classes.get? id with
    | some c => String.mk c.name
    | none => ""
  | .instRef id =>
    match st.insts.get? id with
    | some i =>
      (match st.classes.get? i.klass with
        | some c => String.mk c.name
        | none => "") ++ " instance"
    | none => ""

/-- checkNumberOperands + the Binary switch of Interpreter.visitBinary,
as a pure function of the operator token and the operand values. -/
def binaryOp (op : Token) (l r : Value) : Res Value :=
  let nums : (JsNum → JsNum → Value) → Res Value := fun f =>
    match l with
    | .num a =>
      match r with
      | .num b => .ok (f a b)
      | _ => .err (.runtime op.line "right operand must be a number")
    | _ => .err (.runtime op.line "Left operand must be a number")
  match op.type with
  | .LESS => nums (fun a b => .bool (jsLt a b))
  | .LESS_EQUAL => nums (fun a b => .bool (jsLe a b))
  | .GREATER => nums (fun a b => .bool (jsLt b a))
  | .GREATER_EQUAL => nums (fun a b => .bool (jsLe b a))
  | .BANG_EQUAL => .ok (.bool (!isEqual l r))
  | .EQUAL_EQUAL => .ok (.bool (isEqual l r))
  | .MINUS => nums (fun a b => .num (jsSub a b))
  | .PLUS =>
    match l, r with
    | .num a, .num b => .ok (.num (jsAdd a b))
    | .str a, .str b => .ok (.str (a ++ b))
    | _, _ => .err (.runtime op.line "Operands must be two numbers or two strings.")
  | .STAR => nums (fun a b => .num (jsMul a b))
  | .SLASH => nums (fun a b => .num (jsDiv a b))
  | .COMMA => .ok r
  | _ => .err (.internal "Unexpected binary operator.")

/-- Interpreter.lookUpVariable.  Modelled from the spec: the current
interpreter (the revision with `resolve`/hop map that resolver.js and
index.js require) is absent from the dump; spec section 4.4 states
`Variable`/`This`: if the hop map has an entry, `getAt(hop, lexeme)`, else
look up in globals (dynamic `get` on the globals environment, index 0). -/
def lookUpVariable (n : Nat) (id : Nat) (name : Token) (st : St) : Res Value :=
  match st.locals.lookup id with
  | some d => envGetAt st d st.curEnv name.lexeme
  | none => envGet n st 0 name

/-- LoxInstance.get: fields are consulted before class methods (a field
shadows a method of the same name); a method is returned freshly bound to
the instance; otherwise RuntimeError "Undefined property". -/
def instGet (st : St) (instId : Nat) (name : Token) : Res Value × St :=
  match st.insts.get? instId with
  | none => (.err (.internal "unknown instance"), st)
  | some inst =>
    match inst.fields.lookup name.lexeme with
    | some v => (.ok v, st)
    | none =>
      match findMethod st inst.klass name.lexeme with
      | some m =>
        match bindTo st m instId with
        | (_, fid, st1) => (.ok (.fnRef fid), st1)
      | none =>
        (.err (.runtime name.line
          ("Undefined property '" ++ String.mk name.lexeme ++ "'.")), st)

/-- LoxInstance.set: create or overwrite the field. -/
def instSetField (st : St) (instId : Nat) (name : List Char) (v : Value) : St :=
  match st.insts.get? instId with
  | some inst =>
    { st with insts := st.insts.set instId { inst with fields := assocSet inst.fields name v } }
  | none => st

/-- Callable check plus arity (Interpreter.visitCall): `none` when the value
is not a Callable; LoxFunction.arity is the parameter count;
LoxClass.arity is the arity of `init` or 0. -/
def calleeArity (st : St) (v : Value) : Option Nat :=
  match v with
  | .clockRef => some 0
  | .fnRef id => (st.fns.get? id).map (fun f => f.decl.params.length)
  | .classRef id =>
    match st.classes.get? id with
    | some c =>
      match c.methods.lookup ("init".toList) with
      | some ini => some ini.decl.params.length
      | none => some 0
    | none => none
  | _ => none

/-- Parameter binding loop of LoxFunction.call. -/
def defineParams (params : List Token) (args : List Value) (envId : Nat) (st : St) : St :=
  match params, args with
  | p :: ps, a :: rest => defineParams ps rest envId (envDefine st envId p.lexeme (.val a))
  | p :: ps, [] => defineParams ps [] envId (envDefine st envId p.lexeme .uninit)
  | [], _ => st

mutual
/-- Expression evaluation (the ExprVisitor side of interpreter.js).
`visitVariable`, `visitThis`, `visitAssign`, `visitGetExpr`, `visitSetExpr`
are modelled from the spec (section 4.4) because the hop-map revision of
interpreter.js is absent from the dump; all other visitors follow the
interpreter.js in the dump verbatim. -/
def evalExpr : Nat → Expr → St → Res Value × St
  | 0, _, st => (.timeout, st)
  | n + 1, e, st =>
    match e with
    | .literal v => (.ok v, st)
    | .grouping g => evalExpr n g st
    | .unary op r =>
      match evalExpr n r st with
      | (.ok rv, st1) =>
        match op.type with
        | .MINUS =>
          match rv with
          | .num m => (.ok (.num (jsNeg m)), st1)
          | _ => (.err (.runtime op.line "Operand must be a number"), st1)
        | .BANG => (.ok (.bool (!isTruthy rv)), st1)
        | _ => (.err (.internal "Unexpected unary operator."), st1)
      | r1 => r1
    | .binary l op r =>
      match evalExpr n l st with
      | (.ok lv, st1) =>
        match evalExpr n r st1 with
        | (.ok rv, st2) => (binaryOp op lv rv, st2)
        | r2 => r2
      | r1 => r1
    | .logical l op r =>
      match evalExpr n l st with
      | (.ok lv, st1) =>
        match op.type with
        | .OR => if isTruthy lv then (.ok lv, st1) else evalExpr n r st1
        | .AND => if !isTruthy lv then (.ok lv, st1) else evalExpr n r st1
        | _ => (.err (.internal "Unexpected logical operator."), st1)
      | r1 => r1
    | .ternary c t f =>
      match evalExpr n c st with
      | (.ok cv, st1) => if isTruthy cv then evalExpr n t st1 else evalExpr n f st1
      | r1 => r1
    | .variable id name => (lookUpVariable n id name st, st)
    | .thisExpr id keyword => (lookUpVariable n id keyword st, st)
    | .assign id name value =>
      match evalExpr n value st with
      | (.ok v, st1) =>
        (match st1.locals.lookup id with
          | some d =>
            match envAssignAt st1 d st1.curEnv name v with
            | (.ok _, st2) => (.ok v, st2)
            | (.err e2, st2) => (.err e2, st2)
            | (.ret v2, st2) => (.ret v2, st2)
            | (.timeout, st2) => (.timeout, st2)
          | none =>
            match envAssign n st1 0 name v with
            | (.ok _, st2) => (.ok v, st2)
            | (.err e2, st2) => (.err e2, st2)
            | (.ret v2, st2) => (.ret v2, st2)
            | (.timeout, st2) => (.timeout, st2))
      | r1 => r1
    | .call callee paren args =>
      match evalExpr n callee st with
      | (.ok cv, st1) =>
        match evalArgs n args st1 with
        | (.ok avs, st2) => checkedCall n cv avs paren st2
        | (.err e2, st2) => (.err e2, st2)
        | (.ret v2, st2) => (.ret v2, st2)
        | (.timeout, st2) => (.timeout, st2)
      | r1 => r1
    | .getExpr obj name =>
      match evalExpr n obj st with
      | (.ok ov, st1) =>
        match ov with
        | .instRef i => instGet st1 i name
        | _ => (.err (.runtime name.line "Only instances have properties."), st1)
      | r1 => r1
    | .setExpr obj name value =>
      match evalExpr n obj st with
      | (.ok ov, st1) =>
        match ov with
        | .instRef i =>
          match evalExpr n value st1 with
          | (.ok v, st2) => (.ok v, instSetField st2 i name.lexeme v)
          | r2 => r2
        | _ => (.err (.runtime name.line "Only instances have fields."), st1)
      | r1 => r1

/-- Left-to-right argument evaluation (`expr.args.map(...)` in visitCall). -/
def evalArgs : Nat → List Expr → St → Res (List Value) × St
  | 0, _, st => (.timeout, st)
  | _ + 1, [], st => (.ok [], st)
  | n + 1, e :: rest, st =>
    match evalExpr n e st with
    | (.ok v, st1) =>
      match evalArgs n rest st1 with
      | (.ok vs, st2) => (.ok (v :: vs), st2)
      | r2 => r2
    | (.err e2, st1) => (.err e2, st1)
    | (.ret v2, st1) => (.ret v2, st1)
    | (.timeout, st1) => (.timeout, st1)

/-- The tail of Interpreter.visitCall after callee and arguments are
evaluated: the Callable check, the arity check, then dispatch. -/
def checkedCall : Nat → Value → List Value → Token → St → Res Value × St
  | 0, _, _, _, st => (.timeout, st)
  | n + 1, callee, args, paren, st =>
    match calleeArity st callee with
    | none => (.err (.runtime paren.line "Can only call functions and classes."), st)
    | some ar =>
      if args.length ≠ ar then
        (.err (.runtime paren.line
          ("Expected " ++ toString ar ++ " arguments but got " ++
            toString args.length ++ ".")), st)
      else
        match callee with
        | .clockRef => (.ok (.num (.finite 0)), st)
        | .fnRef id =>
          match st.fns.get? id with
          | some f => callFn n f args st
          | none => (.err (.internal "unknown function"), st)
        | .classRef id => classCall n id args st
        | _ => (.err (.internal "unreachable callable"), st)

/-- LoxFunction.call: fresh environment child of the closure, bind
parameters, run the body; a surfacing ReturnValue yields its value — except
for an initializer, which always yields the `this` bound at hop 0 of its
closure, however the body exited; a normal exit yields nil (or `this`). -/
def callFn : Nat → FnData → List Value → St → Res Value × St
  | 0, _, _, st => (.timeout, st)
  | n + 1, f, args, st =>
    match allocEnv st (some f.closure) with
    | (envId, st1) =>
      let st2 := defineParams f.decl.params args envId st1
      match execBlockIn n f.decl.body envId st2 with
      | (.ok _, st3) =>
        if f.isInit then (envGetAt st3 0 f.closure ("this".toList), st3)
        else (.ok .nil, st3)
      | (.ret v, st3) =>
        if f.isInit then (envGetAt st3 0 f.closure ("this".toList), st3)
        else (.ok v, st3)
      | (.err e2, st3) => (.err e2, st3)
      | (.timeout, st3) => (.timeout, st3)

/-- LoxClass.call: allocate a fresh instance; when an `init` method exists,
bind it to the instance and invoke it with the supplied arguments (its
result is discarded, its thrown errors propagate); the call's result is the
new instance. -/
def classCall : Nat → Nat → List Value → St → Res Value × St
  | 0, _, _, st => (.timeout, st)
  | n + 1, classId, args, st =>
    match st.classes.get? classId with
    | none => (.err (.internal "unknown class"), st)
    | some c =>
      match allocInst st ⟨classId, []⟩ with
      | (instId, st1) =>
        match c.methods.lookup ("init".toList) with
        | some ini =>
          match bindTo st1 ini instId with
          | (bound, _, st2) =>
            match callFn n bound args st2 with
            | (.ok _, st3) => (.ok (.instRef instId), st3)
            | (.err e2, st3) => (.err e2, st3)
            | (.ret v2, st3) => (.ret v2, st3)
            | (.timeout, st3) => (.timeout, st3)
        | none => (.ok (.instRef instId), st1)

/-- Interpreter.executeBlock: run the statements under the given
environment, restoring the previous current environment on every exit path
(the JS `finally`). -/
def execBlockIn : Nat → List Stmt → Nat → St → Res Unit × St
  | 0, _, _, st => (.timeout, st)
  | n + 1, stmts, envId, st =>
    match execStmts n stmts { st with curEnv := envId } with
    | (r, st1) => (r, { st1 with curEnv := st.curEnv })

/-- Sequential statement execution (Interpreter.interpret's loop body and
executeBlock's loop). -/
def execStmts : Nat → List Stmt → St → Res Unit × St
  | 0, _, st => (.timeout, st)
  | _ + 1, [], st => (.ok (), st)
  | n + 1, s :: rest, st =>
    match execStmt n s st with
    | (.ok _, st1) => execStmts n rest st1
    | r1 => r1

/-- Statement execution (the StmtVisitor side of interpreter.js).
`visitClass` is modelled from the spec (section 4.4) for the same reason as
the hop-map visitors. -/
def execStmt : Nat → Stmt → St → Res Unit × St
  | 0, _, st => (.timeout, st)
  | n + 1, s, st =>
    match s with
    | .expression e =>
      match evalExpr n e st with
      | (.ok _, st1) => (.ok (), st1)
      | (.err e2, st1) => (.err e2, st1)
      | (.ret v2, st1) => (.ret v2, st1)
      | (.timeout, st1) => (.timeout, st1)
    | .print e =>
      match evalExpr n e st with
      | (.ok v, st1) => (.ok (), { st1 with output := st1.output ++ [stringify st1 v] })
      | (.err e2, st1) => (.err e2, st1)
      | (.ret v2, st1) => (.ret v2, st1)
      | (.timeout, st1) => (.timeout, st1)
    | .varDecl name declInit =>
      match declInit with
      | some e =>
        match evalExpr n e st with
        | (.ok v, st1) => (.ok (), envDefine st1 st1.curEnv name.lexeme (.val v))
        | (.err e2, st1) => (.err e2, st1)
        | (.ret v2, st1) => (.ret v2, st1)
        | (.timeout, st1) => (.timeout, st1)
      | none => (.ok (), envDefine st st.curEnv name.lexeme .uninit)
    | .block stmts =>
      match allocEnv st (some st.curEnv) with
      | (envId, st1) => execBlockIn n stmts envId st1
    | .ifStmt c t e =>
      match evalExpr n c st with
      | (.ok cv, st1) =>
        if isTruthy cv then execStmt n t st1
        else
          match e with
          | some els => execStmt n els st1
          | none => (.ok (), st1)
      | (.err e2, st1) => (.err e2, st1)
      | (.ret v2, st1) => (.ret v2, st1)
      | (.timeout, st1) => (.timeout, st1)
    | .whileStmt c b =>
      match evalExpr n c st with
      | (.ok cv, st1) =>
        if isTruthy cv then
          match execStmt n b st1 with
          | (.ok _, st2) => execStmt n (.whileStmt c b) st2
          | r2 => r2
        else (.ok (), st1)
      | (.err e2, st1) => (.err e2, st1)
      | (.ret v2, st1) => (.ret v2, st1)
      | (.timeout, st1) => (.timeout, st1)
    | .funDecl d =>
      match allocFn st ⟨d, st.curEnv, false⟩ with
      | (fid, st1) => (.ok (), envDefine st1 st1.curEnv d.name.lexeme (.val (.fnRef fid)))
    | .returnStmt _ value =>
      match value with
      | some v =>
        match evalExpr n v st with
        | (.ok rv, st1) => (.ret rv, st1)
        | (.err e2, st1) => (.err e2, st1)
        | (.ret v2, st1) => (.ret v2, st1)
        | (.timeout, st1) => (.timeout, st1)
      | none => (.ret .nil, st)
    | .classDecl name methods =>
      let st1 := envDefine st st.curEnv name.lexeme (.val .nil)
      let ms := methods.map
        (fun m => (m.name.lexeme, FnData.mk m st1.curEnv (m.name.lexeme == "init".toList)))
      match allocClass st1 ⟨name.lexeme, ms⟩ with
      | (cid, st2) =>
        match envAssign n st2 st2.curEnv name (.classRef cid) with
        | (.ok _, st3) => (.ok (), st3)
        | (.err e2, st3) => (.err e2, st3)
        | (.ret v2, st3) => (.ret v2, st3)
        | (.timeout, st3) => (.timeout, st3)
end

/-- The interpreter's initial state: a globals environment (index 0) holding
the built-in `clock`, the given hop map, empty heap stores, no output. -/
def initSt (locals : List (Nat × Nat)) : St :=
  ⟨[⟨[("clock".toList, Slot.val .clockRef)], none⟩], [], [], [], 0, locals, []⟩

/-- Interpreter.interpret on a program, given the resolver's hop map: runs
the statements in order from the initial state.  A `.err (.runtime ..)`
result is what reporter.runtimeError receives (setting the runtime-error
flag); `.err (.internal ..)` is an uncaught exception; `.ret` is an escaped
ReturnValue (also uncaught at top level). -/
def interpret (fuel : Nat) (stmts : List Stmt) (locals : List (Nat × Nat)) :
    Res Unit × St :=
  execStmts fuel stmts (initSt locals)

/-- Identifier token `a` of the C2 scenario program. -/
def c2ATok : Token := ⟨.IDENTIFIER, "a".toList, .nullLit, 1⟩

/-- Identifier token `show` of the C2 scenario program. -/
def c2ShowTok : Token := ⟨.IDENTIFIER, "show".toList, .nullLit, 2⟩

/-- Closing-paren token of the C2 scenario's calls. -/
def c2ParenTok : Token := ⟨.RIGHT_PAREN, ")".toList, .nullLit, 2⟩

/-- `fun show() { print a; }` (the `a` node has identity 0). -/
def c2ShowDecl : FnDecl := .mk c2ShowTok [] [.print (.variable 0 c2ATok)]

/-- Body of the block in the C2 scenario: declare `show`, call it, declare a
shadowing `var a = "local"`, call `show` again (callee nodes 1 and 2). -/
def c2Inner : List Stmt := [
  .funDecl c2ShowDecl,
  .expression (.call (.variable 1 c2ShowTok) c2ParenTok []),
  .varDecl c2ATok (some (.literal (.str "local".toList))),
  .expression (.call (.variable 2 c2ShowTok) c2ParenTok [])
]

/-- The C2 scenario program:
`var a = "global"; { fun show() { print a; } show(); var a = "local"; show(); }`. -/
def progC2 : List Stmt :=
  .varDecl c2ATok (some (.literal (.str "global".toList))) :: [.block c2Inner]

/-- Hop map the resolver computes for progC2: both `show` callees resolve at
hop 0; the `a` inside `show` (node 0) is global, so it has no entry. -/
def c2Locals : List (Nat × Nat) := [(1, 0), (2, 0)]

/-- Globals of the C2 run after `var a = "global"`. -/
def c2Env0 : EnvData :=
  ⟨[("clock".toList, .val .clockRef), ("a".toList, .val (.str "global".toList))], none⟩

/-- C2 run state after the first statement. -/
def c2St1 : St := ⟨[c2Env0], [], [], [], 0, c2Locals, []⟩

/-- Block environment of the C2 run after `var a = "local"`. -/
def c2Env1B : EnvData :=
  ⟨[("show".toList, .val (.fnRef 0)), ("a".toList, .val (.str "local".toList))], some 0⟩

/-- Final state of the C2 run: two fresh call environments, both prints
went to the global `a`. -/
def c2StF : St :=
  ⟨[c2Env0, c2Env1B, ⟨[], some 1⟩, ⟨[], some 1⟩], [⟨c2ShowDecl, 1, false⟩], [], [], 0,
    c2Locals, ["global", "global"]⟩

theorem c2Step1 : execStmt 24 (.varDecl c2ATok (some (.literal (.str "global".toList))))
    (initSt c2Locals) = (.ok (), c2St1) := rfl

set_option maxHeartbeats 2000000 in
theorem c2StepBlock : execStmt 23 (.block c2Inner) c2St1 = (.ok (), c2StF) := rfl

theorem c2Run : interpret 25 progC2 c2Locals = (.ok (), c2StF) := by
  simp only [interpret, progC2, execStmts, c2Step1, c2StepBlock]

set_option maxHeartbeats 2000000 in
theorem c2Resolve : resolveProgram 30 progC2 = .ok ⟨[], "none", "none", c2Locals, []⟩ :=
  rfl

/-- C2: a local Variable/Assign reaches exactly the binding the resolver
assigned.  (1) A Variable with a hop-map entry `d` evaluates through
`getAt(d)`, which (2) reads the slot of exactly the `d`-th ancestor
environment — no other binding of the same name is consulted — and (3) an
Assign with entry `d` writes exactly that environment's slot.  (4)–(6) In
the scenario program
`var a = "global"; { fun show() { print a; } show(); var a = "local"; show(); }`
the resolver leaves `a` inside `show` global, and both calls print `global`:
the later shadowing `var a` in the block does not change what the closure
reads. -/
theorem C2_resolved_binding :
    (∀ (n id : Nat) (name : Token) (st : St) (d : Nat),
      st.locals.lookup id = some d →
      evalExpr (n + 1) (.variable id name) st = (envGetAt st d st.curEnv name.lexeme, st)) ∧
    (∀ (st : St) (d envId : Nat) (name : List Char) (a : Nat),
      ancestor d st envId = .ok a →
      envGetAt st d envId name =
        (match (envValues st a).lookup name with
          | some (.val v) => .ok v
          | some .uninit =>
            .err (.internal ("Variable '" ++ String.mk name ++ "' is not initialized."))
          | none =>
            .err (.internal ("Variable '" ++ String.mk name ++ "' is not defined.")))) ∧
    (∀ (st : St) (d envId : Nat) (name : Token) (v : Value) (a : Nat),
      ancestor d st envId = .ok a →
      envAssignAt st d envId name v =
        (.ok (), envSetValues st a (assocSet (envValues st a) name.lexeme (.val v)))) ∧
    resolveProgram 30 progC2 = .ok ⟨[], "none", "none", c2Locals, []⟩ ∧
    interpret 25 progC2 c2Locals = (.ok (), c2StF) ∧
    c2StF.output = ["global", "global"] := by
  refine ⟨?_, ?_, ?_, c2Resolve, c2Run, rfl⟩
  · intro n id name st d h
    simp only [evalExpr, lookUpVariable, h]
  · intro st d envId name a h
    simp only [envGetAt, h]
  · intro st d envId name v a h
    simp only [envAssignAt, h]

/-- C2 witness: the theorem's general parts applied in a concrete two-link
environment chain (`b = 7` one hop up), plus its closed scenario parts. -/
theorem C2_witness :
    (St.mk [⟨[("b".toList, .val (.num (.finite 7)))], none⟩, ⟨[], some 0⟩] [] [] []
        1 [(9, 1)] []).locals.lookup 9 = some 1 ∧
    evalExpr 5 (.variable 9 ⟨.IDENTIFIER, "b".toList, .nullLit, 3⟩)
        (St.mk [⟨[("b".toList, .val (.num (.finite 7)))], none⟩, ⟨[], some 0⟩] [] [] []
          1 [(9, 1)] []) =
      (envGetAt (St.mk [⟨[("b".toList, .val (.num (.finite 7)))], none⟩, ⟨[], some 0⟩]
          [] [] [] 1 [(9, 1)] []) 1 1 ("b".toList),
        St.mk [⟨[("b".toList, .val (.num (.finite 7)))], none⟩, ⟨[], some 0⟩] [] [] []
          1 [(9, 1)] []) ∧
    envGetAt (St.mk [⟨[("b".toList, .val (.num (.finite 7)))], none⟩, ⟨[], some 0⟩]
        [] [] [] 1 [(9, 1)] []) 1 1 ("b".toList) = .ok (.num (.finite 7)) :=
  ⟨rfl,
    C2_resolved_binding.1 4 9 ⟨.IDENTIFIER, "b".toList, .nullLit, 3⟩ _ 1 rfl,
    (C2_resolved_binding.2.1
      (St.mk [⟨[("b".toList, .val (.num (.finite 7)))], none⟩, ⟨[], some 0⟩] [] [] []
        1 [(9, 1)] []) 1 1 ("b".toList) 0 rfl).trans rfl⟩

/-- Identifier token `x` of the C6 scenario program. -/
def c6XTok : Token := ⟨.IDENTIFIER, "x".toList, .nullLit, 1⟩

/-- The C6 scenario program `var x; print x;`. -/
def progC6 : List Stmt := [.varDecl c6XTok none, .print (.variable 0 c6XTok)]

/-- C6: an environment slot is observably absent, uninitialized, or holding
a value — exactly the three cases of its lookup result — and Environment.get
raises distinct runtime errors for the latter two failure modes: reading an
uninitialized slot reports "... is not initialized." (in the environment
that holds the slot), while a name absent from the whole chain reports
"Undefined variable ...", and the two messages differ for every name.
Consequently `var x; print x;` (which resolves with no hop entries) aborts
with a runtime error whose message contains "not initialized". -/
theorem C6_uninitialized_distinct :
    (∀ (st : St) (envId : Nat) (name : List Char),
      (envValues st envId).lookup name = none ∨
      (envValues st envId).lookup name = some .uninit ∨
      (∃ v, (envValues st envId).lookup name = some (.val v))) ∧
    (∀ (n : Nat) (st : St) (envId : Nat) (name : Token),
      (envValues st envId).lookup name.lexeme = some .uninit →
      envGet (n + 1) st envId name =
        .err (.runtime name.line
          ("Variable '" ++ String.mk name.lexeme ++ "' is not initialized."))) ∧
    (∀ (n : Nat) (st : St) (envId : Nat) (name : Token) (v : Value),
      (envValues st envId).lookup name.lexeme = some (.val v) →
      envGet (n + 1) st envId name = .ok v) ∧
    (∀ (n : Nat) (st : St) (envId : Nat) (name : Token),
      (envValues st envId).lookup name.lexeme = none →
      envEnclosing st envId = none →
      envGet (n + 1) st envId name =
        .err (.runtime name.line
          ("Undefined variable '" ++ String.mk name.lexeme ++ "'."))) ∧
    (∀ (n : Nat) (st : St) (envId p : Nat) (name : Token),
      (envValues st envId).lookup name.lexeme = none →
      envEnclosing st envId = some p →
      envGet (n + 1) st envId name = envGet n st p name) ∧
    (∀ name : List Char,
      ("Variable '" ++ String.mk name ++ "' is not initialized.") ≠
        ("Undefined variable '" ++ String.mk name ++ "'.")) ∧
    resolveProgram 20 progC6 = .ok ⟨[], "none", "none", [], []⟩ ∧
    (interpret 20 progC6 []).1 =
      .err (.runtime 1 "Variable 'x' is not initialized.") ∧
    ("Variable 'x' is not initialized." =
      "Variable 'x' is " ++ "not initialized" ++ ".") := by
  refine ⟨?_, ?_, ?_, ?_, ?_, ?_, rfl, rfl, rfl⟩
  · intro st envId name
    match h : (envValues st envId).lookup name with
    | none => exact Or.inl rfl
    | some .uninit => exact Or.inr (Or.inl rfl)
    | some (.val v) => exact Or.inr (Or.inr ⟨v, rfl⟩)
  · intro n st envId name h
    simp only [envGet, h]
  · intro n st envId name v h
    simp only [envGet, h]
  · intro n st envId name h h2
    simp only [envGet, h, h2]
  · intro n st envId p name h h2
    simp only [envGet, h, h2]
  · intro name h
    have h2 := congrArg String.length h
    simp only [String.length_append] at h2
    have e1 : "Variable '".length = 10 := rfl
    have e2 : "' is not initialized.".length = 21 := rfl
    have e3 : "Undefined variable '".length = 20 := rfl
    have e4 : "'.".length = 2 := rfl
    rw [e1, e2, e3, e4] at h2
    omega

/-- C6 witness: the theorem applied to a one-environment state holding an
uninitialized `x` (and, for the undefined case, no `y`). -/
theorem C6_witness :
    ((envValues (St.mk [⟨[("x".toList, .uninit)], none⟩] [] [] [] 0 [] []) 0).lookup
      ("x".toList) = some .uninit) ∧
    envGet 3 (St.mk [⟨[("x".toList, .uninit)], none⟩] [] [] [] 0 [] []) 0 c6XTok =
      .err (.runtime 1 ("Variable '" ++ String.mk ("x".toList) ++ "' is not initialized.")) ∧
    envGet 3 (St.mk [⟨[("x".toList, .uninit)], none⟩] [] [] [] 0 [] []) 0
        ⟨.IDENTIFIER, "y".toList, .nullLit, 4⟩ =
      .err (.runtime 4 ("Undefined variable '" ++ String.mk ("y".toList) ++ "'.")) :=
  ⟨rfl,
    C6_uninitialized_distinct.2.1 2 _ 0 c6XTok rfl,
    C6_uninitialized_distinct.2.2.2.1 2 _ 0 ⟨.IDENTIFIER, "y".toList, .nullLit, 4⟩ rfl rfl⟩

/-- Tokens of the C7 side-effect scenario `var y = 1; true or (y = 2); print y;`. -/
def c7YTok : Token := ⟨.IDENTIFIER, "y".toList, .nullLit, 1⟩

/-- OR operator token. -/
def c7OrTok : Token := ⟨.OR, "or".toList, .nullLit, 1⟩

/-- The C7 side-effect scenario program. -/
def progC7 : List Stmt := [
  .varDecl c7YTok (some (.literal (.num (.finite 1)))),
  .expression (.logical (.literal (.bool true)) c7OrTok (.assign 0 c7YTok (.literal (.num (.finite 2))))),
  .print (.variable 1 c7YTok)
]

/-- C7: visitLogical evaluates the left operand first; for `or` a truthy
left value is returned as-is with the right operand unevaluated (the state,
and hence every side effect, is exactly the state after the left operand),
otherwise the right operand's value is the result; dually for `and` with a
falsy left value.  The result is the operand value itself, never a coerced
boolean.  In the scenario `var y = 1; true or (y = 2); print y;` the
assignment in the right operand never runs, so `1` is printed. -/
theorem C7_logical_short_circuit :
    (∀ (n : Nat) (l r : Expr) (op : Token) (st st1 : St) (lv : Value),
      op.type = .OR → evalExpr n l st = (.ok lv, st1) →
      (isTruthy lv = true → evalExpr (n + 1) (.logical l op r) st = (.ok lv, st1)) ∧
      (isTruthy lv = false → evalExpr (n + 1) (.logical l op r) st = evalExpr n r st1)) ∧
    (∀ (n : Nat) (l r : Expr) (op : Token) (st st1 : St) (lv : Value),
      op.type = .AND → evalExpr n l st = (.ok lv, st1) →
      (isTruthy lv = false → evalExpr (n + 1) (.logical l op r) st = (.ok lv, st1)) ∧
      (isTruthy lv = true → evalExpr (n + 1) (.logical l op r) st = evalExpr n r st1)) ∧
    (∀ (n : Nat) (l r : Expr) (op : Token) (st st1 : St) (e : Err),
      evalExpr n l st = (.err e, st1) →
      evalExpr (n + 1) (.logical l op r) st = (.err e, st1)) ∧
    (interpret 20 progC7 []).2.output = ["1"] ∧
    (interpret 20 progC7 []).1 = .ok () := by
  refine ⟨?_, ?_, ?_, rfl, rfl⟩
  · intro n l r op st st1 lv hop hl
    constructor
    · intro ht
      simp only [evalExpr, hl, hop, ht, if_pos]
    · intro hf
      simp only [evalExpr, hl, hop, hf]
      simp
  · intro n l r op st st1 lv hop hl
    constructor
    · intro hf
      simp only [evalExpr, hl, hop, hf]
      simp
    · intro ht
      simp only [evalExpr, hl, hop, ht]
      simp
  · intro n l r op st st1 e hl
    simp only [evalExpr, hl]

/-- C7 witness: the short-circuit theorem applied to `true or 2` and
`false and 2` in the empty initial state. -/
theorem C7_witness :
    evalExpr 2 (.literal (.bool true)) (initSt []) = (.ok (.bool true), initSt []) ∧
    evalExpr 3 (.logical (.literal (.bool true)) c7OrTok (.literal (.num (.finite 2))))
        (initSt []) = (.ok (.bool true), initSt []) ∧
    evalExpr 3 (.logical (.literal (.bool false)) ⟨.AND, "and".toList, .nullLit, 1⟩
        (.literal (.num (.finite 2)))) (initSt []) = (.ok (.bool false), initSt []) :=
  ⟨rfl,
    (C7_logical_short_circuit.1 2 (.literal (.bool true)) (.literal (.num (.finite 2)))
      c7OrTok (initSt []) (initSt []) (.bool true) rfl rfl).1 rfl,
    (C7_logical_short_circuit.2.1 2 (.literal (.bool false)) (.literal (.num (.finite 2)))
      ⟨.AND, "and".toList, .nullLit, 1⟩ (initSt []) (initSt []) (.bool false) rfl rfl).1 rfl⟩

/-- EQUAL_EQUAL operator token for the C8 evaluator-level conjunct. -/
def c8EqTok : Token := ⟨.EQUAL_EQUAL, "==".toList, .nullLit, 1⟩

/-- SLASH operator token. -/
def c8SlashTok : Token := ⟨.SLASH, "/".toList, .nullLit, 1⟩

/-- The expression `(0/0) == (0/0)`. -/
def c8NaNEq : Expr :=
  .binary (.binary (.literal (.num (.finite 0))) c8SlashTok (.literal (.num (.finite 0))))
    c8EqTok
    (.binary (.literal (.num (.finite 0))) c8SlashTok (.literal (.num (.finite 0))))

/-- C8: isEqual is value equality on the primitives (nil, booleans, numbers,
strings), identity (store index) on callables and instances, and treats NaN
as equal to itself; hence `nil == nil` is true, `nil == 0` is false,
`0/0` evaluates to NaN and `(0/0) == (0/0)` evaluates to true, and isEqual
is reflexive on every runtime value. -/
theorem C8_equality :
    isEqual .nil .nil = true ∧
    isEqual .nil (.num (.finite 0)) = false ∧
    jsDiv (.finite 0) (.finite 0) = .nan ∧
    isEqual (.num .nan) (.num .nan) = true ∧
    (∀ v : Value, isEqual v v = true) ∧
    (∀ a b : Bool, isEqual (.bool a) (.bool b) = (a == b)) ∧
    (∀ p q : ℚ, isEqual (.num (.finite p)) (.num (.finite q)) = (p == q)) ∧
    (∀ s t : List Char, isEqual (.str s) (.str t) = (s == t)) ∧
    (∀ i j : Nat, isEqual (.fnRef i) (.fnRef j) = (i == j)) ∧
    (∀ i j : Nat, isEqual (.classRef i) (.classRef j) = (i == j)) ∧
    (∀ i j : Nat, isEqual (.instRef i) (.instRef j) = (i == j)) ∧
    (evalExpr 5 c8NaNEq (initSt [])).1 = .ok (.bool true) := by
  refine ⟨rfl, rfl, rfl, rfl, ?_, ?_, ?_, ?_, ?_, ?_, ?_, rfl⟩
  · intro v
    match v with
    | .nil => rfl
    | .bool b => simp [isEqual, jsStrictEq]
    | .num m =>
      match m with
      | .finite q => simp [isEqual, jsStrictEq, numStrictEq]
      | .nan => rfl
      | .inf s => simp [isEqual, jsStrictEq, numStrictEq]
    | .str s => simp [isEqual, jsStrictEq]
    | .clockRef => rfl
    | .fnRef i => simp [isEqual, jsStrictEq]
    | .classRef i => simp [isEqual, jsStrictEq]
    | .instRef i => simp [isEqual, jsStrictEq]
  · intro a b
    simp [isEqual, jsStrictEq, valueIsNaN]
  · intro p q
    simp [isEqual, jsStrictEq, numStrictEq, valueIsNaN]
  · intro s t
    simp [isEqual, jsStrictEq, valueIsNaN]
  · intro i j
    simp [isEqual, jsStrictEq, valueIsNaN]
  · intro i j
    simp [isEqual, jsStrictEq, valueIsNaN]
  · intro i j
    simp [isEqual, jsStrictEq, valueIsNaN]

/-- C9: LoxInstance.get consults fields before class methods: a field with
the looked-up name is returned unconditionally (so it shadows any method of
that name); only when no such field exists is a method looked up on the
class and returned bound to the instance (a fresh bound function); when
neither exists the runtime error "Undefined property" is raised. -/
theorem C9_field_shadows_method :
    (∀ (st : St) (instId : Nat) (inst : InstData) (name : Token) (v : Value),
      st.insts.get? instId = some inst →
      inst.fields.lookup name.lexeme = some v →
      instGet st instId name = (.ok v, st)) ∧
    (∀ (st : St) (instId : Nat) (inst : InstData) (name : Token) (m : FnData)
        (bound : FnData) (bid : Nat) (st2 : St),
      st.insts.get? instId = some inst →
      inst.fields.lookup name.lexeme = none →
      findMethod st inst.klass name.lexeme = some m →
      bindTo st m instId = (bound, bid, st2) →
      instGet st instId name = (.ok (.fnRef bid), st2)) ∧
    (∀ (st : St) (instId : Nat) (inst : InstData) (name : Token),
      st.insts.get? instId = some inst →
      inst.fields.lookup name.lexeme = none →
      findMethod st inst.klass name.lexeme = none →
      instGet st instId name =
        (.err (.runtime name.line
          ("Undefined property '" ++ String.mk name.lexeme ++ "'.")), st)) := by
  refine ⟨?_, ?_, ?_⟩
  · intro st instId inst name v hi hf
    simp only [instGet, hi, hf]
  · intro st instId inst name m bound bid st2 hi hf hm hb
    simp only [instGet, hi, hf, hm, hb]
  · intro st instId inst name hi hf hm
    simp only [instGet, hi, hf, hm]

/-- A class `K` with a single method `m` returning nothing, for the C9
witness. -/
def c9MDecl : FnDecl :=
  .mk ⟨.IDENTIFIER, "m".toList, .nullLit, 1⟩ [] []

/-- C9 witness state: one class `K` with method `m`, and one `K` instance
whose field `m` holds 7 — the field shadows the method. -/
def c9St : St :=
  ⟨[⟨[], none⟩], [], [⟨"K".toList, [("m".toList, ⟨c9MDecl, 0, false⟩)]⟩],
    [⟨0, [("m".toList, .num (.finite 7))]⟩, ⟨0, []⟩], 0, [], []⟩

/-- C9 witness: on the instance with the field, `get` returns the field
value 7 although the class defines a method `m`; on the field-less instance
it returns the freshly bound method; a missing name errors. -/
theorem C9_witness :
    instGet c9St 0 ⟨.IDENTIFIER, "m".toList, .nullLit, 1⟩ = (.ok (.num (.finite 7)), c9St) ∧
    findMethod c9St 0 ("m".toList) = some ⟨c9MDecl, 0, false⟩ ∧
    instGet c9St 1 ⟨.IDENTIFIER, "m".toList, .nullLit, 1⟩ =
      (.ok (.fnRef 0),
        ⟨[⟨[], none⟩, ⟨[("this".toList, .val (.instRef 1))], some 0⟩],
          [⟨c9MDecl, 1, false⟩],
          [⟨"K".toList, [("m".toList, ⟨c9MDecl, 0, false⟩)]⟩],
          [⟨0, [("m".toList, .num (.finite 7))]⟩, ⟨0, []⟩], 0, [], []⟩) ∧
    instGet c9St 1 ⟨.IDENTIFIER, "q".toList, .nullLit, 2⟩ =
      (.err (.runtime 2 ("Undefined property '" ++ String.mk ("q".toList) ++ "'.")), c9St) :=
  ⟨C9_field_shadows_method.1 c9St 0 ⟨0, [("m".toList, .num (.finite 7))]⟩
      ⟨.IDENTIFIER, "m".toList, .nullLit, 1⟩ (.num (.finite 7)) rfl rfl,
    rfl,
    C9_field_shadows_method.2.1 c9St 1 ⟨0, []⟩ ⟨.IDENTIFIER, "m".toList, .nullLit, 1⟩
      ⟨c9MDecl, 0, false⟩ ⟨c9MDecl, 1, false⟩ 0
      ⟨[⟨[], none⟩, ⟨[("this".toList, .val (.instRef 1))], some 0⟩],
        [⟨c9MDecl, 1, false⟩],
        [⟨"K".toList, [("m".toList, ⟨c9MDecl, 0, false⟩)]⟩],
        [⟨0, [("m".toList, .num (.finite 7))]⟩, ⟨0, []⟩], 0, [], []⟩
      rfl rfl rfl rfl,
    C9_field_shadows_method.2.2 c9St 1 ⟨0, []⟩ ⟨.IDENTIFIER, "q".toList, .nullLit, 2⟩
      rfl rfl rfl⟩

/-- C10: a class without an `init` method has arity 0 (LoxClass.arity);
visitCall checks the arity before invoking the callee, so calling such a
class with `k ≥ 1` arguments raises "Expected 0 arguments but got k." with
the state unchanged — no instance is constructed — while calling it with
zero arguments allocates exactly one fresh instance of the class and
returns it. -/
theorem C10_no_init_arity_zero :
    (∀ (st : St) (classId : Nat) (c : ClassData),
      st.classes.get? classId = some c →
      c.methods.lookup ("init".toList) = none →
      calleeArity st (.classRef classId) = some 0) ∧
    (∀ (n : Nat) (st : St) (classId : Nat) (c : ClassData) (args : List Value)
        (paren : Token),
      st.classes.get? classId = some c →
      c.methods.lookup ("init".toList) = none →
      args ≠ [] →
      checkedCall (n + 1) (.classRef classId) args paren st =
        (.err (.runtime paren.line
          ("Expected 0 arguments but got " ++ toString args.length ++ ".")), st)) ∧
    (∀ (n : Nat) (st : St) (classId : Nat) (c : ClassData) (paren : Token),
      st.classes.get? classId = some c →
      c.methods.lookup ("init".toList) = none →
      checkedCall (n + 2) (.classRef classId) [] paren st =
        (.ok (.instRef st.insts.length),
          { st with insts := st.insts ++ [⟨classId, []⟩] })) := by
  refine ⟨?_, ?_, ?_⟩
  · intro st classId c hc hi
    simp only [calleeArity, hc, hi]
  · intro n st classId c args paren hc hi hne
    have hlen : args.length ≠ 0 := by
      intro h0
      exact hne (List.length_eq_zero.mp h0)
    simp only [checkedCall, calleeArity, hc, hi, if_pos hlen]
    rfl
  · intro n st classId c paren hc hi
    simp only [checkedCall, calleeArity, hc, hi]
    rw [if_neg (show ¬(([] : List Value).length ≠ 0) by decide)]
    simp only [classCall, hc, hi, allocInst]

/-- C10 witness state: one class `K` with no methods (hence no `init`). -/
def c10St : St := ⟨[⟨[], none⟩], [], [⟨"K".toList, []⟩], [], 0, [], []⟩

/-- C10 witness: the theorem applied to a class without `init`: its arity
is 0, a one-argument call errors with the state unchanged, and a
zero-argument call returns the fresh instance. -/
theorem C10_witness :
    calleeArity c10St (.classRef 0) = some 0 ∧
    checkedCall 5 (.classRef 0) [.nil] ⟨.RIGHT_PAREN, ")".toList, .nullLit, 3⟩ c10St =
      (.err (.runtime 3 ("Expected 0 arguments but got " ++ toString ([Value.nil].length) ++ ".")),
        c10St) ∧
    checkedCall 5 (.classRef 0) [] ⟨.RIGHT_PAREN, ")".toList, .nullLit, 3⟩ c10St =
      (.ok (.instRef c10St.insts.length),
        { c10St with insts := c10St.insts ++ [⟨0, []⟩] }) :=
  ⟨C10_no_init_arity_zero.1 c10St 0 ⟨"K".toList, []⟩ rfl rfl,
    C10_no_init_arity_zero.2.1 4 c10St 0 ⟨"K".toList, []⟩ [.nil]
      ⟨.RIGHT_PAREN, ")".toList, .nullLit, 3⟩ rfl rfl (by decide),
    C10_no_init_arity_zero.2.2 3 c10St 0 ⟨"K".toList, []⟩
      ⟨.RIGHT_PAREN, ")".toList, .nullLit, 3⟩ rfl rfl⟩

theorem set_concat_length {α : Type} (l : List α) (a b : α) :
    (l ++ [a]).set l.length b = l ++ [b] := by
  induction l with
  | nil => rfl
  | cons x xs ih => simp [List.set, ih]

/-- Closed form of LoxFunction.bindTo: one fresh environment holding `this`,
one fresh function object sharing the declaration. -/
theorem bindTo_eq (st : St) (f : FnData) (instId : Nat) :
    bindTo st f instId =
      (⟨f.decl, st.envs.length, f.isInit⟩, st.fns.length,
        ⟨st.envs ++ [⟨[("this".toList, .val (.instRef instId))], some f.closure⟩],
          st.fns ++ [⟨f.decl, st.envs.length, f.isInit⟩],
          st.classes, st.insts, st.curEnv, st.locals, st.output⟩) := by
  unfold bindTo allocEnv envDefine envSetValues envValues allocFn
  simp only [List.get?_concat_length, Option.map_some, Option.getD_some,
    set_concat_length, assocSet, List.lookup]
  rfl

/-- C1: calling a class with an `init` method: (i) a fresh instance of the
class is allocated (at a previously unused identity); (ii) `bindTo`
produces a function whose closure binds `this` at hop 0 to exactly that
instance; (iii) LoxFunction.call on an initializer yields the `this` of its
closure whether the body finishes normally or via a (bare) `return;`; and
(iv) LoxClass.call invokes the bound `init` with the supplied arguments and
returns the fresh instance whenever `init` completes (its result is
discarded), while an error thrown by `init` propagates. -/
theorem C1_init_returns_instance :
    (∀ (st : St) (classId instId : Nat) (st1 : St),
      allocInst st ⟨classId, []⟩ = (instId, st1) →
      instId = st.insts.length ∧ st.insts.get? instId = none ∧
      st1.insts.get? instId = some ⟨classId, []⟩) ∧
    (∀ (st : St) (f : FnData) (instId : Nat) (bound : FnData) (bid : Nat) (st2 : St),
      bindTo st f instId = (bound, bid, st2) →
      bound.isInit = f.isInit ∧ bound.decl = f.decl ∧
      envGetAt st2 0 bound.closure ("this".toList) = .ok (.instRef instId)) ∧
    (∀ (n : Nat) (f : FnData) (args : List Value) (st st1 : St) (envId : Nat)
        (r : Res Unit) (st2 : St),
      f.isInit = true →
      allocEnv st (some f.closure) = (envId, st1) →
      execBlockIn n f.decl.body envId (defineParams f.decl.params args envId st1) =
        (r, st2) →
      (r = .ok () ∨ (∃ v, r = .ret v)) →
      callFn (n + 1) f args st = (envGetAt st2 0 f.closure ("this".toList), st2)) ∧
    (∀ (n : Nat) (st : St) (classId : Nat) (c : ClassData) (ini : FnData)
        (args : List Value) (instId : Nat) (st1 : St) (bound : FnData) (bid : Nat)
        (st2 : St) (r : Res Value) (st3 : St),
      st.classes.get? classId = some c →
      c.methods.lookup ("init".toList) = some ini →
      allocInst st ⟨classId, []⟩ = (instId, st1) →
      bindTo st1 ini instId = (bound, bid, st2) →
      callFn n bound args st2 = (r, st3) →
      ((∃ v, r = .ok v) →
        classCall (n + 1) classId args st = (.ok (.instRef instId), st3)) ∧
      (∀ e, r = .err e → classCall (n + 1) classId args st = (.err e, st3))) := by
  refine ⟨?_, ?_, ?_, ?_⟩
  · intro st classId instId st1 h
    rw [allocInst, Prod.mk.injEq] at h
    obtain ⟨h1, h2⟩ := h
    subst h1
    subst h2
    refine ⟨rfl, List.get?_eq_none.mpr le_rfl, ?_⟩
    exact List.get?_concat_length st.insts ⟨classId, []⟩
  · intro st f instId bound bid st2 h
    rw [bindTo_eq, Prod.mk.injEq, Prod.mk.injEq] at h
    obtain ⟨h1, h2, h3⟩ := h
    subst h1
    subst h3
    refine ⟨rfl, rfl, ?_⟩
    simp only [envGetAt, ancestor, envValues]
    simp only [List.get?_concat_length, Option.map_some, Option.getD_some]
    rfl
  · intro n f args st st1 envId r st2 hInit hAlloc hExec hDisj
    simp only [callFn, hAlloc]
    rw [hExec]
    rcases hDisj with rfl | ⟨v, rfl⟩ <;> simp only [hInit, if_pos]
  · intro n st classId c ini args instId st1 bound bid st2 r st3 hc hini hAllocI hb hcall
    constructor
    · rintro ⟨v, rfl⟩
      simp only [classCall, hc, hAllocI, hini, hb, hcall]
    · rintro e rfl
      simp only [classCall, hc, hAllocI, hini, hb, hcall]

/-- Witness scenario for C1: `class B { init() { return; } }` — an `init`
containing nothing but a bare `return;`. -/
def c1InitDecl : FnDecl :=
  .mk ⟨.IDENTIFIER, "init".toList, .nullLit, 1⟩ []
    [.returnStmt ⟨.RETURN, "return".toList, .nullLit, 1⟩ none]

/-- The witness class's `init` method object (closure = globals). -/
def c1Ini : FnData := ⟨c1InitDecl, 0, true⟩

/-- Witness start state: one (global) environment, the class B in the store. -/
def c1StW : St :=
  ⟨[⟨[], none⟩], [], [⟨"B".toList, [("init".toList, c1Ini)]⟩], [], 0, [], []⟩

/-- State after allocating the fresh instance. -/
def c1St1 : St := { c1StW with insts := [⟨0, []⟩] }

/-- The `init` method bound to the fresh instance. -/
def c1Bound : FnData := ⟨c1InitDecl, 1, true⟩

/-- State after bindTo: the `this` environment and the bound function. -/
def c1St2 : St := { c1St1 with
  envs := [⟨[], none⟩, ⟨[("this".toList, .val (.instRef 0))], some 0⟩],
  fns := [c1Bound] }

/-- State after running the bound `init`: one more (empty) call environment. -/
def c1St3 : St := { c1St2 with
  envs := [⟨[], none⟩, ⟨[("this".toList, .val (.instRef 0))], some 0⟩, ⟨[], some 1⟩] }

theorem C1_witness :
    (0 = c1StW.insts.length ∧ c1StW.insts.get? 0 = none ∧
      c1St1.insts.get? 0 = some ⟨0, []⟩) ∧
    (c1Bound.isInit = c1Ini.isInit ∧ c1Bound.decl = c1Ini.decl ∧
      envGetAt c1St2 0 c1Bound.closure ("this".toList) = .ok (.instRef 0)) ∧
    callFn 5 c1Bound [] c1St2 =
      (envGetAt c1St3 0 c1Bound.closure ("this".toList), c1St3) ∧
    classCall 6 0 [] c1StW = (.ok (.instRef 0), c1St3) := by
  refine ⟨C1_init_returns_instance.1 c1StW 0 0 c1St1 rfl,
    C1_init_returns_instance.2.1 c1St1 c1Ini 0 c1Bound 0 c1St2 rfl,
    C1_init_returns_instance.2.2.1 4 c1Bound [] c1St2 c1St3 2 (.ret .nil) c1St3
      rfl rfl rfl (Or.inr ⟨.nil, rfl⟩), ?_⟩
  exact (C1_init_returns_instance.2.2.2 5 c1StW 0
      ⟨"B".toList, [("init".toList, c1Ini)]⟩ c1Ini [] 0 c1St1 c1Bound 0 c1St2
      (.ok (.instRef 0)) c1St3 rfl rfl rfl rfl rfl).1 ⟨.instRef 0, rfl⟩

end Lox
